import Mathlib

/-!
A shallow embedding of the edit-orchestration engine of
src/themule_atomic_hitl/core.py (class SurgicalEditorLogic), and proofs
about it.

Modelling conventions, used throughout:

* Python strings are modelled by `String` viewed as its list of code points
  (`String.data`): Python indexes, slices and measures strings by code
  point, exactly as `List Char` does.
* Python dictionaries with a known key set are modelled as structures whose
  fields are `Option`-valued when the key may be absent (`none` = key not
  present).  Keys of `self.data` other than the two designated text fields,
  "version" and "status" never influence the orchestration logic and are
  not modelled.
* The external LLM collaborator (`LLMService.invoke_llm`) is modelled by an
  explicit oracle argument carrying the text the LLM call returns for the
  locator and for the editor (`none` = the call fails or returns nothing).
* UI callbacks: `show_error` is modelled by an append-only list of error
  messages in the state; `update_view`, `confirm_location_details`,
  `show_diff_preview` and `request_clarification` carry no state and are
  modelled as no-ops (noted at each call site).
* `uuid.uuid4()` request ids are modelled by a ghost counter `next_id`
  (fresh ids, monotonically increasing); the audit-entry uuids are dropped.
* Two ghost counters `added_count` / `terminal_count` instrument the state:
  `added_count` is incremented exactly when `add_edit_request` enqueues a
  request, `terminal_count` exactly when a request is destroyed (approve,
  cancel, an unrecoverable per-task error that clears the task, or a
  revert discarding the task and the queue).  They let the queue-accounting
  invariant be stated; no operation reads them.
-/

/-! ## Python string primitives -/

/-- The code points Python's str.splitlines treats as line boundaries. -/
def isPyLineBreak (c : Char) : Bool :=
  c = '\n' || c = '\r' || c = '\x0b' || c = '\x0c' ||
  c = '\u001c' || c = '\u001d' || c = '\u001e' || c = '\u0085' ||
  c = ' ' || c = ' '

/-- Python str.splitlines(keepends=True) on a list of code points: splits at
every line boundary, a "\r\n" pair counting as one boundary, and keeps the
terminators on their lines. -/
def splitlinesKeepends : List Char → List (List Char)
  | [] => []
  | c :: rest =>
    if c = '\r' then
      match rest with
      | [] => [['\r']]
      | d :: rest2 =>
        if d = '\n' then ['\r', '\n'] :: splitlinesKeepends rest2
        else ['\r'] :: splitlinesKeepends (d :: rest2)
    else if isPyLineBreak c then [c] :: splitlinesKeepends rest
    else
      match splitlinesKeepends rest with
      | [] => [[c]]
      | l :: ls => (c :: l) :: ls

/-- Python rstrip over the two characters CR and LF, as used by the offset
converter to measure a line without its terminator. -/
def rstripCRLF (l : List Char) : List Char :=
  (l.reverse.dropWhile (fun c => c = '\r' || c = '\n')).reverse

/-- The whitespace Python str.strip removes (the ASCII part; the code never
feeds non-ASCII whitespace to strip). -/
def isPyWhitespace (c : Char) : Bool :=
  c = ' ' || c = '\t' || c = '\n' || c = '\r' || c = '\x0b' || c = '\x0c'

/-- Python str.strip(). -/
def pyStrip (s : String) : String :=
  ⟨((s.data.dropWhile isPyWhitespace).reverse.dropWhile isPyWhitespace).reverse⟩

/-- Python str.index / str.find: the smallest index at which needle occurs in
hay as a contiguous sublist, if any. -/
def findSub : List Char → List Char → Option Nat
  | _, [] => some 0
  | [], _ :: _ => none
  | h :: hs, n :: ns =>
    if (n :: ns).isPrefixOf (h :: hs) then some 0
    else (findSub hs (n :: ns)).map (· + 1)

/-- The case-insensitive literal search re.search(re.escape(t), text,
re.IGNORECASE) performs: the first index where the lowered needle occurs in
the lowered haystack (an escaped pattern matches only literally, and the
ASCII-relevant IGNORECASE matching is length-preserving). -/
def findSubCI (hay needle : List Char) : Option Nat :=
  findSub (hay.map Char.toLower) (needle.map Char.toLower)

/-- Python slicing s[a:b] by code points (negative indices never reach the
slices this code takes: all offsets handled here are naturals). -/
def pySlice (s : String) (a b : Nat) : String :=
  ⟨(s.data.drop a).take (b - a)⟩

/-- The splice snapshot[:start] + replacement + snapshot[end:] that an
approved edit commits. -/
def spliceContent (S : String) (a : Nat) (R : String) (b : Nat) : String :=
  ⟨S.data.take a ++ R.data ++ S.data.drop b⟩

/-- Python str(x) of an Optional[str]: None prints as "None". -/
def pyOptStr : Option String → String
  | none => "None"
  | some s => s

/-! ## The offset converter

_convert_line_col_to_char_offsets of core.py, lines 833-885.  The Python
method reports each failure through the show_error callback and returns
None; the embedding returns the error message in the Except error so the
callers can append it to the error log. -/

/-- _convert_line_col_to_char_offsets: 1-based line/column coordinates to
0-based character offsets against text_content. -/
def _convert_line_col_to_char_offsets (text_content : String)
    (start_line_1based start_col_1based end_line_1based end_col_1based : Int) :
    Except String (Nat × Nat) :=
  let lines := splitlinesKeepends text_content.data
  if ¬ (1 ≤ start_line_1based ∧ start_line_1based ≤ lines.length ∧
        1 ≤ end_line_1based ∧ end_line_1based ≤ lines.length) then
    .error ("Line numbers out of bounds (1-" ++ toString lines.length ++ "): Start " ++
      toString start_line_1based ++ ", End " ++ toString end_line_1based)
  else
    let start_char_base := ((lines.take (start_line_1based.toNat - 1)).map List.length).sum
    let start_line_content_len := (rstripCRLF (lines.getD (start_line_1based.toNat - 1) [])).length
    if ¬ (1 ≤ start_col_1based ∧ start_col_1based ≤ (start_line_content_len : Int) + 1) then
      .error ("Start column " ++ toString start_col_1based ++ " out of bounds (1-" ++
        toString (start_line_content_len + 1) ++ ") for line " ++ toString start_line_1based ++ ".")
    else
      let start_char_offset := start_char_base + (start_col_1based.toNat - 1)
      let end_char_base := ((lines.take (end_line_1based.toNat - 1)).map List.length).sum
      let end_line_content_len := (rstripCRLF (lines.getD (end_line_1based.toNat - 1) [])).length
      if ¬ (1 ≤ end_col_1based ∧ end_col_1based ≤ (end_line_content_len : Int) + 1) then
        .error ("End column " ++ toString end_col_1based ++ " out of bounds (1-" ++
          toString (end_line_content_len + 1) ++ ") for line " ++ toString end_line_1based ++ ".")
      else
        let end_char_offset := end_char_base + (end_col_1based.toNat - 1)
        if start_char_offset > end_char_offset then
          .error ("Start offset " ++ toString start_char_offset ++ " is greater than end offset " ++
            toString end_char_offset ++ ".")
        else if ¬ (start_char_offset ≤ text_content.data.length ∧
                   end_char_offset ≤ text_content.data.length) then
          .error "Calculated character offsets are out of text content bounds."
        else
          .ok (start_char_offset, end_char_offset)

/-! ## Data model -/

/-- The selection_details dictionary a selection_specific request carries
(text, startLineNumber, startColumn, endLineNumber, endColumn); any key may
be absent, which the dispatcher validates. -/
structure SelectionDetails where
  text : Option String := none
  startLineNumber : Option Int := none
  startColumn : Option Int := none
  endLineNumber : Option Int := none
  endColumn : Option Int := none
  deriving DecidableEq, Repr

/-- All five selection_details keys are present (the all(k in sel_details ...)
validation of _process_next_edit_request). -/
def selAllKeys (sd : SelectionDetails) : Bool :=
  sd.text.isSome && sd.startLineNumber.isSome && sd.startColumn.isSome &&
  sd.endLineNumber.isSome && sd.endColumn.isSome

/-- The selection_details dictionary is empty (Python's `not sel_details` on a
dict); with the five modelled keys, empty means every key absent. -/
def selIsEmpty (sd : SelectionDetails) : Bool :=
  sd.text.isNone && sd.startLineNumber.isNone && sd.startColumn.isNone &&
  sd.endLineNumber.isNone && sd.endColumn.isNone

/-- A location_info dictionary.  The locator produces snippet/start_idx/
end_idx; the selection path produces snippet/start_line/start_col/end_line/
end_col with is_selection_based = True; the UI supplies one at location
confirmation (validated to hold snippet, start_idx and end_idx). -/
structure LocationInfo where
  snippet : Option String := none
  start_idx : Option Nat := none
  end_idx : Option Nat := none
  start_line : Option Int := none
  start_col : Option Int := none
  end_line : Option Int := none
  end_col : Option Int := none
  is_selection_based : Bool := false
  deriving DecidableEq, Repr

/-- llm_generated_snippet_details.  start_legacy/end_legacy model the legacy
keys "start"/"end" read by snippet_details.get in the approve path; this
code never writes them, so they are none on every detail it constructs. -/
structure SnippetDetails where
  original_snippet : String
  edited_snippet : String
  location_data_from_prior_step : LocationInfo
  start_legacy : Option Nat := none
  end_legacy : Option Nat := none
  deriving DecidableEq, Repr

/-- One entry of the edit_request_queue. -/
structure EditRequest where
  id : Nat
  type : String
  instruction : String
  content_snapshot : String
  hint : Option String
  selection_details : Option SelectionDetails
  status : String
  deriving DecidableEq, Repr

/-- The active_edit_task dictionary. -/
structure ActiveTask where
  id : Nat
  type : String
  user_instruction : String
  original_content_snapshot : String
  user_hint : Option String
  selection_details_from_request : Option SelectionDetails
  status : String
  location_info : Option LocationInfo := none
  llm_generated_snippet_details : Option SnippetDetails := none
  deriving DecidableEq, Repr

/-- One entry of edit_results (audit log); its uuid is not modelled. -/
structure AuditEntry where
  status : String
  message : String
  deriving DecidableEq, Repr

/-- The projection of self.data relevant to the orchestration: the main
(modified) text field, the original/baseline text field, and the "version"
and "status" keys.  An Option field is none when the key is absent.  The
version value is kept as an uninterpreted string: only which field changes,
never the numeric value, matters to the logic verified here. -/
structure Document where
  main : Option String := none
  original : Option String := none
  version : Option String := none
  status : Option String := none
  deriving DecidableEq, Repr

/-- A perform_action payload, projected onto the keys the handlers can read:
the document keys it may copy and the action_name key handle_unknown_action
reads. -/
structure Payload where
  main : Option String := none
  original : Option String := none
  version : Option String := none
  status : Option String := none
  action_name : Option String := none
  deriving DecidableEq, Repr

/-- What the external LLM collaborator answers during one driving-API call:
the text returned by the locator invocation and by the editor invocation
(at most one of each happens per call).  none = the invocation fails or
returns nothing. -/
structure LLMOracle where
  locResp : Option String := none
  edResp : Option String := none
  deriving DecidableEq, Repr

/-- The full state of a SurgicalEditorLogic instance.  data and snapshot
(_initial_data_snapshot) are the document and its session-start deep copy;
llm_service tells whether the LLM service initialized (it never changes);
errors is the append-only log of show_error messages; next_id, added_count
and terminal_count are the ghost instrumentation described in the header. -/
structure EditorState where
  data : Document
  snapshot : Document
  llm_service : Bool
  edit_request_queue : List EditRequest
  active_edit_task : Option ActiveTask
  edit_results : List AuditEntry
  errors : List String
  next_id : Nat
  added_count : Nat
  terminal_count : Nat
  deriving DecidableEq, Repr

/-! ## Small state combinators (each models one Python statement) -/

/-- The show_error callback: appends the message to the error log. -/
def showError (s : EditorState) (msg : String) : EditorState :=
  { s with errors := s.errors ++ [msg] }

/-- show_error called several times in a row. -/
def appendErrors (s : EditorState) (msgs : List String) : EditorState :=
  { s with errors := s.errors ++ msgs }

/-- self.active_edit_task = task. -/
def setActive (s : EditorState) (t : ActiveTask) : EditorState :=
  { s with active_edit_task := some t }

/-- self.active_edit_task = None for a task that thereby reaches a terminal
outcome; the ghost terminal counter advances with it. -/
def clearTask (s : EditorState) : EditorState :=
  { s with active_edit_task := none, terminal_count := s.terminal_count + 1 }

/-- The current_main_content property: self.data.get(main_text_field, ""). -/
def current_main_content (s : EditorState) : String :=
  s.data.main.getD ""

/-! ## Initialisation (init of core.py, lines 46-105) -/

/-- The SurgicalEditorLogic constructor.  initial_data is either a raw string
or a document dictionary; llm_available models whether the LLMService came
up (the init-time show_error of a failed LLM construction is not modelled:
every claim concerns operation-time behaviour).  The snapshot is taken
before the two designated fields are defaulted in, exactly as in init. -/
def initState (initial_data : String ⊕ Document) (llm_available : Bool) : EditorState :=
  let data0 : Document := match initial_data with
    | .inl text =>
      { main := some text, original := some text, version := none,
        status := some "Loaded from raw text" }
    | .inr d => d
  let snapshot0 := data0
  let data1 := if data0.main.isNone then { data0 with main := some "" } else data0
  let data2 := if data1.original.isNone then { data1 with original := data1.main } else data1
  { data := data2, snapshot := snapshot0, llm_service := llm_available,
    edit_request_queue := [], active_edit_task := none, edit_results := [],
    errors := [], next_id := 0, added_count := 0, terminal_count := 0 }

/-! ## The mock LLM methods (_llm_locator, _llm_editor) -/

/-- _llm_locator (core.py 724-788).  Returns the location_info (or none) and
the show_error messages it issued.  llmResponse none models a failed
invocation (the except branch); the exception text itself is abbreviated. -/
def _llm_locator (llm_available : Bool) (text_to_search hint : String)
    (llmResponse : Option String) : Option LocationInfo × List String :=
  if ¬ llm_available then
    (none, ["LLMService is not available. Cannot locate snippet."])
  else
    match llmResponse with
    | none => (none, ["Error during LLM location: LLM invocation failed"])
    | some raw =>
      if pyStrip raw = "" then
        (none, ["LLM locator returned an empty response for hint: '" ++ hint ++ "'"])
      else
        let t := pyStrip raw
        match findSub text_to_search.data t.data with
        | some i =>
          (some { snippet := some t, start_idx := some i, end_idx := some (i + t.length) }, [])
        | none =>
          match findSubCI text_to_search.data t.data with
          | some i =>
            (some { snippet := some (pySlice text_to_search i (i + t.length)),
                    start_idx := some i, end_idx := some (i + t.length) }, [])
          | none =>
            (none, ["LLM locator returned: '" ++ t ++
              "', which was not found in the original text, even with lenient search."])

/-- _llm_editor (core.py 790-831).  Returns the edited snippet and the
show_error messages; on an unavailable service or a failed/None invocation
the original snippet comes back unchanged. -/
def _llm_editor (llm_available : Bool) (snippet_to_edit : String)
    (llmResponse : Option String) : String × List String :=
  if ¬ llm_available then
    (snippet_to_edit, ["LLMService is not available. Cannot edit snippet."])
  else
    match llmResponse with
    | none => (snippet_to_edit, ["LLM editor returned None. Using original snippet."])
    | some r => (pyStrip r, [])

/-! ## The worker steps -/

/-- The active_edit_task built from a dequeued request
(_process_next_edit_request, lines 251-261). -/
def mkTask (r : EditRequest) : ActiveTask :=
  { id := r.id, type := r.type, user_instruction := r.instruction,
    original_content_snapshot := r.content_snapshot, user_hint := r.hint,
    selection_details_from_request := r.selection_details,
    status := "processing_started", location_info := none,
    llm_generated_snippet_details := none }

/-- The location_info a selection_specific request predefines
(_process_next_edit_request, lines 290-299). -/
def locFromSel (sd : SelectionDetails) : LocationInfo :=
  { snippet := sd.text, start_line := sd.startLineNumber, start_col := sd.startColumn,
    end_line := sd.endLineNumber, end_col := sd.endColumn, is_selection_based := true }

/-- _execute_llm_locator_attempt (core.py 312-347).  The Python guard also
tests content_to_search is None; the snapshot key is present on every task
this code builds, so only hint falsiness (None or empty) is modelled.  The
confirm_location_details callback on success carries no state. -/
def _execute_llm_locator_attempt (o : LLMOracle) (s : EditorState) : EditorState :=
  match s.active_edit_task with
  | none => showError s "LLM locator attempt called without a valid active task."
  | some t =>
    if t.user_hint.getD "" = "" then
      setActive
        (showError s ("Task " ++ toString t.id ++ ": Missing hint or content snapshot for location."))
        { t with status := "error_missing_locator_data" }
    else
      match _llm_locator s.llm_service t.original_content_snapshot (t.user_hint.getD "") o.locResp with
      | (none, errs) => setActive (appendErrors s errs) { t with status := "location_failed" }
      | (some loc, errs) =>
        setActive (appendErrors s errs)
          { t with location_info := some loc, status := "awaiting_location_confirmation" }

/-- _initiate_llm_edit_for_task (core.py 349-396) applied to the active task
(every Python call site passes self.active_edit_task).  The snippet key is
present on every location_info this code stores (Python would raise a
KeyError otherwise); the show_diff_preview callback carries no state. -/
def _initiate_llm_edit_for_task (o : LLMOracle) (s : EditorState) : EditorState :=
  match s.active_edit_task with
  | none => showError s "Task None: Cannot initiate LLM edit, location_info missing or invalid."
  | some t =>
    match t.location_info with
    | none =>
      setActive
        (showError s ("Task " ++ toString t.id ++
          ": Cannot initiate LLM edit, location_info missing or invalid."))
        { t with status := "error_missing_location_for_edit" }
    | some li =>
      let r := _llm_editor s.llm_service (li.snippet.getD "") o.edResp
      setActive (appendErrors s r.2)
        { t with
          llm_generated_snippet_details := some
            { original_snippet := li.snippet.getD "", edited_snippet := r.1,
              location_data_from_prior_step := li },
          status := "awaiting_diff_approval" }

/-- _process_next_edit_request (core.py 234-310): a no-op when a task is
active; dequeues the queue head otherwise and starts it (hint_based: the
locator; selection_specific: validation then the editor); on a bad
selection or an unknown type the task errors out, is cleared, and the next
request is tried.  The update_view notifications carry no state. -/
def _process_next_edit_request (o : LLMOracle) (s : EditorState) : EditorState :=
  match s.active_edit_task with
  | some _ => s
  | none =>
    match hq : s.edit_request_queue with
    | [] => s
    | req :: rest =>
      let s1 : EditorState :=
        { s with edit_request_queue := rest, active_edit_task := some (mkTask req) }
      if req.type = "hint_based" then
        _execute_llm_locator_attempt o
          (setActive s1 { (mkTask req) with status := "locating_snippet" })
      else if req.type = "selection_specific" then
        match req.selection_details with
        | none =>
          _process_next_edit_request o (clearTask
            (showError s1 ("Task " ++ toString req.id ++ ": Invalid selection_details provided.")))
        | some sd =>
          if selIsEmpty sd ∨ ¬ selAllKeys sd then
            _process_next_edit_request o (clearTask
              (showError s1 ("Task " ++ toString req.id ++ ": Invalid selection_details provided.")))
          else
            _initiate_llm_edit_for_task o
              (setActive s1
                { (mkTask req) with
                  location_info := some (locFromSel sd)
                  status := "location_predefined" })
      else
        _process_next_edit_request o (clearTask
          (showError s1 ("Task " ++ toString req.id ++ ": Unknown request type '" ++
            req.type ++ "'")))
termination_by s.edit_request_queue.length
decreasing_by
  all_goals simp only [clearTask, showError, hq]; simp [hq]

/-! ## The driving API -/

/-- The enqueue step of add_edit_request (core.py 217-229): a new request
with a freshly taken content snapshot is appended to the queue tail. -/
def enqueue_new_request (s : EditorState) (instruction request_type : String)
    (hint : Option String) (selection_details : Option SelectionDetails) : EditorState :=
  { s with
    edit_request_queue := s.edit_request_queue ++
      [{ id := s.next_id, type := request_type, instruction := instruction,
         content_snapshot := current_main_content s, hint := hint,
         selection_details := selection_details, status := "queued" }],
    next_id := s.next_id + 1, added_count := s.added_count + 1 }

/-- add_edit_request (core.py 190-232). -/
def add_edit_request (o : LLMOracle) (s : EditorState) (instruction request_type : String)
    (hint : Option String) (selection_details : Option SelectionDetails) : EditorState :=
  if request_type ≠ "hint_based" ∧ request_type ≠ "selection_specific" then
    showError s ("Invalid request type: " ++ request_type)
  else if request_type = "hint_based" ∧ hint = none then
    showError s "Hint is required for hint_based requests."
  else if request_type = "selection_specific" ∧ selection_details = none then
    showError s "Selection details are required for selection_specific requests."
  else
    let s1 := enqueue_new_request s instruction request_type hint selection_details
    if s1.active_edit_task = none then _process_next_edit_request o s1 else s1

/-- proceed_with_edit_after_location_confirmation (core.py 398-435).  The
confirmed location arrives from the UI; the isinstance/keys check is the
snippet/start_idx/end_idx presence test. -/
def proceed_with_edit_after_location_confirmation (o : LLMOracle) (s : EditorState)
    (confirmed_location_details : LocationInfo) : EditorState :=
  match s.active_edit_task with
  | none => showError s "Proceed with edit (after location confirm) called in an invalid state."
  | some t =>
    if t.status ≠ "awaiting_location_confirmation" then
      showError s "Proceed with edit (after location confirm) called in an invalid state."
    else if ¬ (confirmed_location_details.snippet.isSome ∧
               confirmed_location_details.start_idx.isSome ∧
               confirmed_location_details.end_idx.isSome) then
      setActive (showError s "Invalid confirmed_location_details structure provided by UI.")
        { t with status := "error_in_location_confirmation" }
    else
      _initiate_llm_edit_for_task o
        (setActive s { t with location_info := some confirmed_location_details })

/-- The guard message of process_llm_task_decision. -/
def decisionStateErrMsg : String :=
  "User decision received but task is not in 'awaiting_diff_approval' state or has no snippet details."

/-- The audit entry appended by an approval. -/
def approveEntry (t : ActiveTask) : AuditEntry :=
  { status := "task_approved",
    message := "Approved LLM edit for hint: '" ++ pyOptStr t.user_hint ++ "'" }

/-- The audit entry appended by a cancellation. -/
def cancelEntry (t : ActiveTask) : AuditEntry :=
  { status := "task_cancelled",
    message := "User cancelled LLM edit task for hint: '" ++ pyOptStr t.user_hint ++ "'" }

/-- The character offsets the approve branch of process_llm_task_decision
resolves (core.py 459-518): the offset converter on the snapshot for a
selection-based location; the locator's start_idx/end_idx (or the legacy
start/end keys) for a hint-based task; none where the code reports a
failure instead. -/
def approveOffsets (t : ActiveTask) (d : SnippetDetails) : Option Nat × Option Nat :=
  let location_data := d.location_data_from_prior_step
  if t.type = "selection_specific" ∧ location_data.is_selection_based then
    match _convert_line_col_to_char_offsets t.original_content_snapshot
        (location_data.start_line.getD 0) (location_data.start_col.getD 0)
        (location_data.end_line.getD 0) (location_data.end_col.getD 0) with
    | .ok (a, b) => (some a, some b)
    | .error _ => (none, none)
  else if t.type = "hint_based" then
    if location_data.start_idx.isSome ∧ location_data.end_idx.isSome then
      (location_data.start_idx, location_data.end_idx)
    else (d.start_legacy, d.end_legacy)
  else (none, none)

/-- The commit of an approved edit (core.py 520-571): splice the replacement
into the task's snapshot, write it to the main field, append the audit
entry, clear the task and advance the queue. -/
def applyApprovedEdit (o : LLMOracle) (s : EditorState) (t : ActiveTask)
    (d : SnippetDetails) (manually_edited_snippet : Option String)
    (start_offset end_offset : Nat) : EditorState :=
  let snippet_to_apply := match manually_edited_snippet with
    | some m => m
    | none => d.edited_snippet
  let new_content :=
    spliceContent t.original_content_snapshot start_offset snippet_to_apply end_offset
  _process_next_edit_request o (clearTask
    { s with
      data := { s.data with main := some new_content }
      edit_results := s.edit_results ++ [approveEntry t] })

/-- process_llm_task_decision (core.py 438-591).  The selection-path sanity
check comparing the selected text against the snapshot at the computed
offsets only prints a warning (lines 481-492 are commented out), so it has
no effect here; the request_clarification callback carries no state. -/
def process_llm_task_decision (o : LLMOracle) (s : EditorState) (decision : String)
    (manually_edited_snippet : Option String) : EditorState :=
  match s.active_edit_task with
  | none => showError s decisionStateErrMsg
  | some t =>
    match t.llm_generated_snippet_details with
    | none => showError s decisionStateErrMsg
    | some d =>
      if t.status ≠ "awaiting_diff_approval" then showError s decisionStateErrMsg
      else if decision = "approve" then
        let location_data := d.location_data_from_prior_step
        if t.type = "selection_specific" ∧ location_data.is_selection_based then
          match _convert_line_col_to_char_offsets t.original_content_snapshot
              (location_data.start_line.getD 0) (location_data.start_col.getD 0)
              (location_data.end_line.getD 0) (location_data.end_col.getD 0) with
          | .ok (a, b) => applyApprovedEdit o s t d manually_edited_snippet a b
          | .error msg =>
            _process_next_edit_request o (clearTask
              (showError (showError s msg) ("Task " ++ toString t.id ++
                ": Failed to convert line/col to char offsets. Cannot apply edit.")))
        else if t.type = "hint_based" then
          match (if location_data.start_idx.isSome ∧ location_data.end_idx.isSome then
                   (location_data.start_idx, location_data.end_idx)
                 else (d.start_legacy, d.end_legacy)) with
          | (some a, some b) => applyApprovedEdit o s t d manually_edited_snippet a b
          | _ =>
            _process_next_edit_request o (clearTask
              (showError s ("Task " ++ toString t.id ++
                ": Could not determine character offsets to apply edit.")))
        else
          _process_next_edit_request o (clearTask
            (showError s ("Task " ++ toString t.id ++
              ": Could not determine character offsets to apply edit.")))
      else if decision = "reject" then
        setActive s { t with status := "awaiting_clarification" }
      else if decision = "cancel" then
        _process_next_edit_request o (clearTask
          { s with edit_results := s.edit_results ++ [cancelEntry t] })
      else
        showError s ("Unknown decision: " ++ decision)

/-- The guard message of update_active_task_and_retry. -/
def clarifyErrMsg : String :=
  "Clarification received, but no active task to update or not awaiting clarification."

/-- update_active_task_and_retry (core.py 593-615).  An empty (falsy) new
hint or instruction keeps the previous one; the snapshot is left untouched
and the locator phase restarts. -/
def update_active_task_and_retry (o : LLMOracle) (s : EditorState)
    (new_hint new_instruction : String) : EditorState :=
  match s.active_edit_task with
  | none => showError s clarifyErrMsg
  | some t =>
    if t.status ≠ "awaiting_clarification" then showError s clarifyErrMsg
    else
      _execute_llm_locator_attempt o (setActive s
        { t with
          user_hint := if new_hint ≠ "" then some new_hint else t.user_hint
          user_instruction := if new_instruction ≠ "" then new_instruction else t.user_instruction
          status := "locating_snippet"
          location_info := none
          llm_generated_snippet_details := none })

/-! ## The action dispatcher (perform_action and handlers, core.py 617-717) -/

/-- handle_approve_main_content (core.py 648-671): the main field is taken
from the payload when present; every other payload key already present in
the document is copied over; then the status label is set. -/
def handle_approve_main_content (s : EditorState) (p : Payload) : EditorState :=
  let d0 := s.data
  let d1 := match p.main with | some v => { d0 with main := some v } | none => d0
  let d2 := match p.original, d1.original with
    | some v, some _ => { d1 with original := some v }
    | _, _ => d1
  let d3 := match p.version, d2.version with
    | some v, some _ => { d2 with version := some v }
    | _, _ => d2
  let d4 := match p.status, d3.status with
    | some v, some _ => { d3 with status := some v }
    | _, _ => d3
  { s with data := { d4 with status := some "Content Approved (General)" } }

/-- handle_increment_version (core.py 673-682).  The Python handler parses
the version as a float, adds 0.1 and rounds to one decimal, resetting to
0.1 when unparsable; floating-point arithmetic is outside this embedding,
so the new value is represented by tagging the old string — no claim
depends on the numeric value, only on which state fields change. -/
def handle_increment_version (s : EditorState) : EditorState :=
  let old := match s.data.version with | some v => v | none => "0.0"
  { s with data :=
    { s.data with
      version := some ("0.1+" ++ old)
      status := some "Version updated." } }

/-- handle_revert_changes (core.py 684-703): the document is restored from
the session-start snapshot (then stamped), a cancelled-on-revert audit
entry is appended for an active task, the task is discarded and the queue
cleared.  Every discarded request counts as terminal. -/
def handle_revert_changes (s : EditorState) : EditorState :=
  let s1 := { s with data := { s.snapshot with status := some "Changes Reverted." } }
  let s2 := match s1.active_edit_task with
    | some t =>
      { s1 with
        edit_results := s1.edit_results ++
          [({ status := "task_cancelled_on_revert",
              message := "Task for hint '" ++ pyOptStr t.user_hint ++
                "' cancelled due to revert." } : AuditEntry)]
        active_edit_task := none
        terminal_count := s1.terminal_count + 1 }
    | none => s1
  { s2 with edit_request_queue := [],
            terminal_count := s2.terminal_count + s2.edit_request_queue.length }

/-- handle_unknown_action (core.py 707-717). -/
def handle_unknown_action (s : EditorState) (p : Payload) : EditorState :=
  showError s ("Unknown generic action '" ++ p.action_name.getD "unknown" ++ "' requested.")

/-- perform_action (core.py 617-646): dynamic dispatch on handle_<name> over
the three defined handlers, handle_unknown_action otherwise; the modelled
handlers never raise, so the success audit entry is always appended. -/
def perform_action (s : EditorState) (action_name : String) (payload : Payload) : EditorState :=
  let s1 :=
    if action_name = "approve_main_content" then handle_approve_main_content s payload
    else if action_name = "increment_version" then handle_increment_version s
    else if action_name = "revert_changes" then handle_revert_changes s
    else handle_unknown_action s payload
  { s1 with edit_results := s1.edit_results ++
      [{ status := "action_" ++ action_name ++ "_success",
         message := "Action '" ++ action_name ++ "' performed." }] }

/-- start_session (core.py 132-163): aligns the original/baseline field of
data and of the snapshot, then tries to process a first request.  (The
nested snapshot re-assignment at line 157 is dead: the snapshot's original
field is always present at that point.) -/
def start_session (o : LLMOracle) (s : EditorState) : EditorState :=
  let snap := if s.snapshot.original.isNone then
      { s.snapshot with original := some (s.snapshot.main.getD "") }
    else s.snapshot
  let s1 := { s with snapshot := snap }
  let s2 := if s1.data.original ≠ some (snap.original.getD "") then
      { s1 with data := { s1.data with original := some (snap.original.getD "") } }
    else s1
  _process_next_edit_request o s2

/-! ## The transition system -/

/-- One driving-API invocation, with the LLM oracle answers it consumes. -/
inductive Event where
  | startSession (o : LLMOracle)
  | addEditRequest (o : LLMOracle) (instruction request_type : String)
      (hint : Option String) (selection_details : Option SelectionDetails)
  | proceedLocation (o : LLMOracle) (confirmed : LocationInfo)
  | decision (o : LLMOracle) (dec : String) (manual : Option String)
  | retry (o : LLMOracle) (new_hint new_instruction : String)
  | performAction (action_name : String) (payload : Payload)
  deriving Repr

/-- The step function: what one driving-API call does to the state. -/
def step (s : EditorState) : Event → EditorState
  | .startSession o => start_session o s
  | .addEditRequest o instruction request_type hint sel =>
    add_edit_request o s instruction request_type hint sel
  | .proceedLocation o confirmed =>
    proceed_with_edit_after_location_confirmation o s confirmed
  | .decision o dec manual => process_llm_task_decision o s dec manual
  | .retry o nh ni => update_active_task_and_retry o s nh ni
  | .performAction name p => perform_action s name p

/-- The states reachable from some freshly constructed editor by driving-API
calls. -/
inductive Reachable : EditorState → Prop
  | init (initial_data : String ⊕ Document) (llm_available : Bool) :
      Reachable (initState initial_data llm_available)
  | step (s : EditorState) (e : Event) : Reachable s → Reachable (step s e)

/-! ## Derived notions used by the claims -/

/-- The content snapshot the system holds for request id i: the active
task's original_content_snapshot when the active task is that request, else
the snapshot of the queued request with that id. -/
def queueSnap (s : EditorState) (i : Nat) : Option String :=
  (s.edit_request_queue.find? (fun r => r.id = i)).map EditRequest.content_snapshot

/-- The snapshot the system currently associates with request id i. -/
def snapOf (s : EditorState) (i : Nat) : Option String :=
  match s.active_edit_task with
  | some t => if t.id = i then some t.original_content_snapshot else queueSnap s i
  | none => queueSnap s i

/-- Id discipline of the queue and the active task: queued ids strictly
increase from head to tail, all ids are below the fresh-id counter, and the
active task (the oldest pending request) precedes every queued id. -/
def idsOK (s : EditorState) : Prop :=
  (s.edit_request_queue.map EditRequest.id).Pairwise (· < ·) ∧
  (∀ r ∈ s.edit_request_queue, r.id < s.next_id) ∧
  (∀ t, s.active_edit_task = some t →
    t.id < s.next_id ∧ ∀ r ∈ s.edit_request_queue, t.id < r.id)

/-- Queue accounting: requests added and not yet terminal are exactly the
queued ones plus the active one. -/
def countOK (s : EditorState) : Prop :=
  s.added_count = s.terminal_count + s.edit_request_queue.length +
    (if s.active_edit_task.isSome then 1 else 0)

/-- The state invariant maintained by every operation. -/
def StateInv (s : EditorState) : Prop := idsOK s ∧ countOK s

/-! ## Specification-side formulas (from the claims' wording, for comparison
with the code) -/

/-- The claimed character offset for a 1-based (line, col) position: the sum
of the lengths of all preceding lines (terminators included) plus the
column minus one. -/
def specOffset (text : String) (line col : Int) : Nat :=
  (((splitlinesKeepends text.data).take (line.toNat - 1)).map List.length).sum + (col.toNat - 1)

/-- The length of a 1-based line without its trailing CR/LF terminator: the
lineLength against which the claims bound column numbers. -/
def specLineContentLen (text : String) (line : Int) : Nat :=
  (rstripCRLF ((splitlinesKeepends text.data).getD (line.toNat - 1) [])).length

/-- The claimed validity condition for offset conversion: both line numbers
in [1, lineCount], both columns in [1, lineLength+1] for their line, and
the start offset not exceeding the end offset. -/
def specValidCoords (text : String) (sl sc el ec : Int) : Prop :=
  1 ≤ sl ∧ sl ≤ (splitlinesKeepends text.data).length ∧
  1 ≤ el ∧ el ≤ (splitlinesKeepends text.data).length ∧
  1 ≤ sc ∧ sc ≤ specLineContentLen text sl + 1 ∧
  1 ≤ ec ∧ ec ≤ specLineContentLen text el + 1 ∧
  specOffset text sl sc ≤ specOffset text el ec

/-! ## Concrete fixtures used by witnesses and counterexamples -/

/-- A located snippet of "The quick fox." (characters 4-13). -/
def sampleLoc : LocationInfo :=
  { snippet := some "quick fox", start_idx := some 4, end_idx := some 13 }

/-- Snippet details for the sample task: the LLM suggested bolding. -/
def sampleDetails : SnippetDetails :=
  { original_snippet := "quick fox", edited_snippet := "**quick fox**",
    location_data_from_prior_step := sampleLoc }

/-- A hint-based task awaiting diff approval over snapshot "The quick fox.". -/
def sampleTask : ActiveTask :=
  { id := 0, type := "hint_based", user_instruction := "bold it",
    original_content_snapshot := "The quick fox.", user_hint := some "find fox",
    selection_details_from_request := none, status := "awaiting_diff_approval",
    location_info := some sampleLoc, llm_generated_snippet_details := some sampleDetails }

/-- An editor state holding sampleTask as its active task. -/
def sampleState : EditorState :=
  { data := { main := some "The quick fox.", original := some "The quick fox.",
              version := none, status := none },
    snapshot := { main := some "The quick fox.", original := some "The quick fox.",
                  version := none, status := none },
    llm_service := true, edit_request_queue := [], active_edit_task := some sampleTask,
    edit_results := [], errors := [], next_id := 1, added_count := 1, terminal_count := 0 }

/-- An oracle whose answers never matter to the fixture that uses it. -/
def sampleOracle : LLMOracle := { locResp := none, edResp := none }

/-- Oracle for the location-failure fixture: the locator answers "zzz", which
occurs in "abc" neither verbatim nor case-insensitively. -/
def c4_oracle : LLMOracle := { locResp := some "zzz", edResp := none }

/-- A hint-based task over snapshot "abc" about to run the locator. -/
def c4_task : ActiveTask :=
  { id := 0, type := "hint_based", user_instruction := "inst",
    original_content_snapshot := "abc", user_hint := some "h",
    selection_details_from_request := none, status := "locating_snippet",
    location_info := none, llm_generated_snippet_details := none }

/-- The state on which the location attempt fails. -/
def c4_s0 : EditorState :=
  { data := { main := some "abc", original := some "abc", version := none, status := none },
    snapshot := { main := some "abc", original := some "abc", version := none, status := none },
    llm_service := true, edit_request_queue := [], active_edit_task := some c4_task,
    edit_results := [], errors := [], next_id := 1, added_count := 1, terminal_count := 0 }

/-- The state after the failed location attempt. -/
def c4_s1 : EditorState := _execute_llm_locator_attempt c4_oracle c4_s0

/-- Oracle for the cancel counterexample: the locator finds "X", the editor
suggests "Y". -/
def c7_oracle : LLMOracle := { locResp := some "X", edResp := some "Y" }

/-- Cancel counterexample, step 0: a session over the raw text "X". -/
def c7_s0 : EditorState := initState (.inl "X") true

/-- Step 1: a hint-based request is added while the main content is "X"; its
snapshot is taken and the locator confirms the snippet "X". -/
def c7_s1 : EditorState :=
  step c7_s0 (.addEditRequest c7_oracle "edit it" "hint_based" (some "the X") none)

/-- Step 2: while the task waits for location confirmation, a generic
approve_main_content action rewrites the main content to "Z". -/
def c7_s2 : EditorState :=
  step c7_s1 (.performAction "approve_main_content" { main := some "Z" })

/-- Step 3: the location is confirmed and the diff is produced; the task now
awaits diff approval. -/
def c7_s3 : EditorState :=
  step c7_s2 (.proceedLocation c7_oracle
    { snippet := some "X", start_idx := some 0, end_idx := some 1 })

/-- The location the run confirms: the snippet "X" at offsets 0-1. -/
def c7_loc : LocationInfo :=
  { snippet := some "X", start_idx := some 0, end_idx := some 1 }

/-- The snippet details the editor produces in the run: "X" edited to "Y". -/
def c7_det : SnippetDetails :=
  { original_snippet := "X", edited_snippet := "Y",
    location_data_from_prior_step := c7_loc }

/-- The edit request enqueued at step 1. -/
def c7_req : EditRequest :=
  { id := 0, type := "hint_based", instruction := "edit it",
    content_snapshot := "X", hint := some "the X",
    selection_details := none, status := "queued" }

/-- The active task as it stands at step 1, awaiting location confirmation. -/
def c7_task1 : ActiveTask :=
  { id := 0, type := "hint_based", user_instruction := "edit it",
    original_content_snapshot := "X", user_hint := some "the X",
    selection_details_from_request := none, status := "awaiting_location_confirmation",
    location_info := some c7_loc, llm_generated_snippet_details := none }

/-- The step-1 state spelled out: the request is active and located, the
document untouched. -/
def c7_l1 : EditorState :=
  { data := { main := some "X", original := some "X", version := none,
              status := some "Loaded from raw text" },
    snapshot := { main := some "X", original := some "X", version := none,
                  status := some "Loaded from raw text" },
    llm_service := true, edit_request_queue := [], active_edit_task := some c7_task1,
    edit_results := [], errors := [], next_id := 1, added_count := 1, terminal_count := 0 }

/-- The active task as it stands at step 3, awaiting diff approval. -/
def c7_task3 : ActiveTask :=
  { id := 0, type := "hint_based", user_instruction := "edit it",
    original_content_snapshot := "X", user_hint := some "the X",
    selection_details_from_request := none, status := "awaiting_diff_approval",
    location_info := some c7_loc, llm_generated_snippet_details := some c7_det }

/-- The step-3 state spelled out: main is "Z", the task snapshot is still
"X". -/
def c7_l3 : EditorState :=
  { data := { main := some "Z", original := some "X", version := none,
              status := some "Content Approved (General)" },
    snapshot := { main := some "X", original := some "X", version := none,
                  status := some "Loaded from raw text" },
    llm_service := true, edit_request_queue := [], active_edit_task := some c7_task3,
    edit_results := [({ status := "action_approve_main_content_success",
                        message := "Action 'approve_main_content' performed." } : AuditEntry)],
    errors := [], next_id := 1, added_count := 1, terminal_count := 0 }

/-- The state after cancelling at step 3: the task is discarded, the audit
entry appended, and the main content remains "Z". -/
def c7_l4 : EditorState :=
  { data := { main := some "Z", original := some "X", version := none,
              status := some "Content Approved (General)" },
    snapshot := { main := some "X", original := some "X", version := none,
                  status := some "Loaded from raw text" },
    llm_service := true, edit_request_queue := [], active_edit_task := none,
    edit_results := [({ status := "action_approve_main_content_success",
                        message := "Action 'approve_main_content' performed." } : AuditEntry),
                     ({ status := "task_cancelled",
                        message := "User cancelled LLM edit task for hint: 'the X'" } : AuditEntry)],
    errors := [], next_id := 1, added_count := 1, terminal_count := 1 }

/-! # Theorems

First the pure string-arithmetic lemmas, then the frame and invariant
lemmas of the transition system, then the claim theorems. -/

/-- splitlines with keepends partitions the text: concatenating the lines
gives back the original character list. -/
theorem splitlinesKeepends_flatten (l : List Char) : (splitlinesKeepends l).flatten = l := by
  induction l using splitlinesKeepends.induct with
  | case1 => rfl
  | case2 => rfl
  | case3 rest2 ih => simp [splitlinesKeepends, ih]
  | case4 d rest2 hd ih => simp [splitlinesKeepends, hd, ih]
  | case5 d rest2 hdr hbrk ih =>
    rw [splitlinesKeepends.eq_def]; simp [hdr, hbrk, ih]
  | case6 d rest2 hdr hbrk hx ih =>
    rw [splitlinesKeepends.eq_def]
    simp only [hx] at ih ⊢
    simp_all
  | case7 d rest2 hdr hbrk l ls hx ih =>
    rw [splitlinesKeepends.eq_def]
    simp only [hx] at ih ⊢
    simp_all

/-- The line lengths of a keepends split sum to the text length. -/
theorem splitlinesKeepends_sum_lengths (l : List Char) :
    ((splitlinesKeepends l).map List.length).sum = l.length := by
  have h := congrArg List.length (splitlinesKeepends_flatten l)
  simpa [List.length_flatten] using h

/-- Stripping trailing CR/LF never lengthens a line. -/
theorem rstripCRLF_length_le (l : List Char) : (rstripCRLF l).length ≤ l.length := by
  simp only [rstripCRLF, List.length_reverse]
  calc (l.reverse.dropWhile fun c => c = '\r' || c = '\n').length
      ≤ l.reverse.length := (List.dropWhile_sublist _).length_le
    _ = l.length := List.length_reverse l

/-- The lengths of the first i lines plus the length of line i are bounded by
the total of all line lengths. -/
theorem sum_map_take_getD_le (L : List (List Char)) (i : Nat) (h : i < L.length) :
    ((L.take i).map List.length).sum + (L.getD i []).length ≤ (L.map List.length).sum := by
  induction L generalizing i with
  | nil => simp at h
  | cons x xs ih =>
    cases i with
    | zero => simp
    | succ n =>
      simp only [List.take_succ_cons, List.map_cons, List.sum_cons, List.getD_cons_succ]
      have := ih n (by simpa using h)
      omega

/-- A within-bounds coordinate denotes an offset inside the text: this is why
the final out-of-bounds check of the converter can never fire on its own. -/
theorem specOffset_le_length (text : String) (line col : Int)
    (h1 : 1 ≤ line) (h2 : line ≤ (splitlinesKeepends text.data).length)
    (h3 : col ≤ specLineContentLen text line + 1) :
    specOffset text line col ≤ text.data.length := by
  have hi : line.toNat - 1 < (splitlinesKeepends text.data).length := by omega
  have hb := sum_map_take_getD_le (splitlinesKeepends text.data) (line.toNat - 1) hi
  have hc : (rstripCRLF ((splitlinesKeepends text.data).getD (line.toNat - 1) [])).length ≤
      ((splitlinesKeepends text.data).getD (line.toNat - 1) []).length :=
    rstripCRLF_length_le _
  have hs := splitlinesKeepends_sum_lengths text.data
  simp only [specOffset]
  simp only [specLineContentLen] at h3
  omega

/-- C6 Offset conversion correctness: for every text and 1-based coordinates,
_convert_line_col_to_char_offsets succeeds exactly when both line numbers
lie in [1, lineCount], both column numbers lie in [1, lineLength+1] for
their line (lineLength counting the line without its terminator), and the
start offset does not exceed the end offset; on success it returns the two
0-based offsets, each the sum of the lengths of all preceding lines (line
terminators included) plus the column minus one, and in every other case it
fails, returning the error message it reports. -/
theorem C6_offset_conversion (text : String) (sl sc el ec : Int) :
    (specValidCoords text sl sc el ec →
      _convert_line_col_to_char_offsets text sl sc el ec =
        .ok (specOffset text sl sc, specOffset text el ec)) ∧
    (¬ specValidCoords text sl sc el ec →
      ∃ msg, _convert_line_col_to_char_offsets text sl sc el ec = .error msg) := by
  constructor
  · rintro ⟨h1, h2, h3, h4, h5, h6, h7, h8, h9⟩
    have hb1 := specOffset_le_length text sl sc h1 h2 h6
    have hb2 := specOffset_le_length text el ec h3 h4 h8
    simp only [specLineContentLen] at h6 h8
    simp only [specOffset] at h9 hb1 hb2 ⊢
    simp only [_convert_line_col_to_char_offsets]
    split_ifs <;> first | rfl | (exfalso; omega)
  · intro hnv
    simp only [specValidCoords, specLineContentLen, specOffset] at hnv
    simp only [_convert_line_col_to_char_offsets]
    split_ifs <;> first | exact ⟨_, rfl⟩ | (exfalso; omega)

theorem execLoc_frame (o : LLMOracle) (s : EditorState) :
    (_execute_llm_locator_attempt o s).edit_request_queue = s.edit_request_queue ∧
    (_execute_llm_locator_attempt o s).next_id = s.next_id ∧
    (_execute_llm_locator_attempt o s).added_count = s.added_count ∧
    (_execute_llm_locator_attempt o s).terminal_count = s.terminal_count ∧
    (_execute_llm_locator_attempt o s).data = s.data ∧
    (_execute_llm_locator_attempt o s).snapshot = s.snapshot ∧
    (_execute_llm_locator_attempt o s).edit_results = s.edit_results ∧
    (_execute_llm_locator_attempt o s).llm_service = s.llm_service := by
  cases h : s.active_edit_task with
  | none => simp [_execute_llm_locator_attempt, h, showError]
  | some t =>
    simp only [_execute_llm_locator_attempt, h]
    split_ifs with hh
    · simp [setActive, showError]
    · rcases hl : _llm_locator s.llm_service t.original_content_snapshot
        (t.user_hint.getD "") o.locResp with ⟨loc, errs⟩
      cases loc <;> simp [hl, setActive, appendErrors]

theorem execLoc_active_some (o : LLMOracle) (s : EditorState) (t : ActiveTask)
    (h : s.active_edit_task = some t) :
    ∃ t', (_execute_llm_locator_attempt o s).active_edit_task = some t' ∧
      t'.id = t.id ∧ t'.original_content_snapshot = t.original_content_snapshot := by
  simp only [_execute_llm_locator_attempt, h]
  split_ifs with hh
  · exact ⟨{ t with status := "error_missing_locator_data" },
      by simp [setActive, showError], rfl, rfl⟩
  · rcases hl : _llm_locator s.llm_service t.original_content_snapshot
      (t.user_hint.getD "") o.locResp with ⟨loc, errs⟩
    cases loc <;> simp [hl, setActive, appendErrors]

theorem execLoc_active_none (o : LLMOracle) (s : EditorState)
    (h : s.active_edit_task = none) :
    (_execute_llm_locator_attempt o s).active_edit_task = none := by
  simp [_execute_llm_locator_attempt, h, showError]

theorem initiate_frame (o : LLMOracle) (s : EditorState) :
    (_initiate_llm_edit_for_task o s).edit_request_queue = s.edit_request_queue ∧
    (_initiate_llm_edit_for_task o s).next_id = s.next_id ∧
    (_initiate_llm_edit_for_task o s).added_count = s.added_count ∧
    (_initiate_llm_edit_for_task o s).terminal_count = s.terminal_count ∧
    (_initiate_llm_edit_for_task o s).data = s.data ∧
    (_initiate_llm_edit_for_task o s).snapshot = s.snapshot ∧
    (_initiate_llm_edit_for_task o s).edit_results = s.edit_results ∧
    (_initiate_llm_edit_for_task o s).llm_service = s.llm_service := by
  cases h : s.active_edit_task with
  | none => simp [_initiate_llm_edit_for_task, h, showError]
  | some t =>
    cases hli : t.location_info <;>
      simp [_initiate_llm_edit_for_task, h, hli, setActive, showError, appendErrors]

theorem initiate_active_some (o : LLMOracle) (s : EditorState) (t : ActiveTask)
    (h : s.active_edit_task = some t) :
    ∃ t', (_initiate_llm_edit_for_task o s).active_edit_task = some t' ∧
      t'.id = t.id ∧ t'.original_content_snapshot = t.original_content_snapshot := by
  cases hli : t.location_info <;>
    simp [_initiate_llm_edit_for_task, h, hli, setActive, showError, appendErrors]

theorem initiate_active_none (o : LLMOracle) (s : EditorState)
    (h : s.active_edit_task = none) :
    (_initiate_llm_edit_for_task o s).active_edit_task = none := by
  simp [_initiate_llm_edit_for_task, h, showError]

@[simp] theorem execLoc_data (o : LLMOracle) (s : EditorState) :
    (_execute_llm_locator_attempt o s).data = s.data := (execLoc_frame o s).2.2.2.2.1

@[simp] theorem execLoc_queue (o : LLMOracle) (s : EditorState) :
    (_execute_llm_locator_attempt o s).edit_request_queue = s.edit_request_queue :=
  (execLoc_frame o s).1

@[simp] theorem execLoc_next_id (o : LLMOracle) (s : EditorState) :
    (_execute_llm_locator_attempt o s).next_id = s.next_id := (execLoc_frame o s).2.1

@[simp] theorem execLoc_added (o : LLMOracle) (s : EditorState) :
    (_execute_llm_locator_attempt o s).added_count = s.added_count := (execLoc_frame o s).2.2.1

@[simp] theorem execLoc_terminal (o : LLMOracle) (s : EditorState) :
    (_execute_llm_locator_attempt o s).terminal_count = s.terminal_count :=
  (execLoc_frame o s).2.2.2.1

@[simp] theorem execLoc_snapshot (o : LLMOracle) (s : EditorState) :
    (_execute_llm_locator_attempt o s).snapshot = s.snapshot := (execLoc_frame o s).2.2.2.2.2.1

@[simp] theorem execLoc_results (o : LLMOracle) (s : EditorState) :
    (_execute_llm_locator_attempt o s).edit_results = s.edit_results :=
  (execLoc_frame o s).2.2.2.2.2.2.1

@[simp] theorem execLoc_llm (o : LLMOracle) (s : EditorState) :
    (_execute_llm_locator_attempt o s).llm_service = s.llm_service :=
  (execLoc_frame o s).2.2.2.2.2.2.2

@[simp] theorem initiate_data (o : LLMOracle) (s : EditorState) :
    (_initiate_llm_edit_for_task o s).data = s.data := (initiate_frame o s).2.2.2.2.1

@[simp] theorem initiate_queue (o : LLMOracle) (s : EditorState) :
    (_initiate_llm_edit_for_task o s).edit_request_queue = s.edit_request_queue :=
  (initiate_frame o s).1

@[simp] theorem initiate_next_id (o : LLMOracle) (s : EditorState) :
    (_initiate_llm_edit_for_task o s).next_id = s.next_id := (initiate_frame o s).2.1

@[simp] theorem initiate_added (o : LLMOracle) (s : EditorState) :
    (_initiate_llm_edit_for_task o s).added_count = s.added_count := (initiate_frame o s).2.2.1

@[simp] theorem initiate_terminal (o : LLMOracle) (s : EditorState) :
    (_initiate_llm_edit_for_task o s).terminal_count = s.terminal_count :=
  (initiate_frame o s).2.2.2.1

@[simp] theorem initiate_snapshot (o : LLMOracle) (s : EditorState) :
    (_initiate_llm_edit_for_task o s).snapshot = s.snapshot := (initiate_frame o s).2.2.2.2.2.1

@[simp] theorem initiate_results (o : LLMOracle) (s : EditorState) :
    (_initiate_llm_edit_for_task o s).edit_results = s.edit_results :=
  (initiate_frame o s).2.2.2.2.2.2.1

@[simp] theorem initiate_llm (o : LLMOracle) (s : EditorState) :
    (_initiate_llm_edit_for_task o s).llm_service = s.llm_service :=
  (initiate_frame o s).2.2.2.2.2.2.2

/-- Step equation: a no-op while a task is active. -/
theorem processNext_eq_active (o : LLMOracle) (s : EditorState) (t : ActiveTask)
    (hx : s.active_edit_task = some t) : _process_next_edit_request o s = s := by
  rw [_process_next_edit_request.eq_def, hx]

/-- Step equation: a no-op on an empty queue. -/
theorem processNext_eq_nil (o : LLMOracle) (s : EditorState)
    (hx : s.active_edit_task = none) (hq : s.edit_request_queue = []) :
    _process_next_edit_request o s = s := by
  rw [_process_next_edit_request.eq_def, hx, hq]

/-- Step equation: dequeuing a hint_based request starts the locator. -/
theorem processNext_eq_hint (o : LLMOracle) (s : EditorState) (req : EditRequest)
    (rest : List EditRequest) (hx : s.active_edit_task = none)
    (hq : s.edit_request_queue = req :: rest) (hty : req.type = "hint_based") :
    _process_next_edit_request o s =
      _execute_llm_locator_attempt o
        (setActive { s with edit_request_queue := rest, active_edit_task := some (mkTask req) }
          { (mkTask req) with status := "locating_snippet" }) := by
  rw [_process_next_edit_request.eq_def, hx, hq]
  simp only [if_pos hty]

/-- Step equation: a selection_specific request with missing selection
details errors out and the next request is tried. -/
theorem processNext_eq_selNone (o : LLMOracle) (s : EditorState) (req : EditRequest)
    (rest : List EditRequest) (hx : s.active_edit_task = none)
    (hq : s.edit_request_queue = req :: rest) (hty1 : ¬ req.type = "hint_based")
    (hty2 : req.type = "selection_specific") (hsd : req.selection_details = none) :
    _process_next_edit_request o s =
      _process_next_edit_request o (clearTask
        (showError { s with edit_request_queue := rest, active_edit_task := some (mkTask req) }
          ("Task " ++ toString req.id ++ ": Invalid selection_details provided."))) := by
  rw [_process_next_edit_request.eq_def, hx, hq]
  simp only [if_neg hty1, if_pos hty2, hsd]

/-- Step equation: a selection_specific request with invalid selection
details errors out and the next request is tried. -/
theorem processNext_eq_selBad (o : LLMOracle) (s : EditorState) (req : EditRequest)
    (rest : List EditRequest) (sd : SelectionDetails) (hx : s.active_edit_task = none)
    (hq : s.edit_request_queue = req :: rest) (hty1 : ¬ req.type = "hint_based")
    (hty2 : req.type = "selection_specific") (hsd : req.selection_details = some sd)
    (hbad : selIsEmpty sd = true ∨ ¬ selAllKeys sd = true) :
    _process_next_edit_request o s =
      _process_next_edit_request o (clearTask
        (showError { s with edit_request_queue := rest, active_edit_task := some (mkTask req) }
          ("Task " ++ toString req.id ++ ": Invalid selection_details provided."))) := by
  rw [_process_next_edit_request.eq_def, hx, hq]
  simp only [if_neg hty1, if_pos hty2, hsd]
  rw [if_pos hbad]

/-- Step equation: a valid selection_specific request proceeds straight to
the editor with a predefined location. -/
theorem processNext_eq_selGood (o : LLMOracle) (s : EditorState) (req : EditRequest)
    (rest : List EditRequest) (sd : SelectionDetails) (hx : s.active_edit_task = none)
    (hq : s.edit_request_queue = req :: rest) (hty1 : ¬ req.type = "hint_based")
    (hty2 : req.type = "selection_specific") (hsd : req.selection_details = some sd)
    (hgood : ¬ (selIsEmpty sd = true ∨ ¬ selAllKeys sd = true)) :
    _process_next_edit_request o s =
      _initiate_llm_edit_for_task o
        (setActive { s with edit_request_queue := rest, active_edit_task := some (mkTask req) }
          { (mkTask req) with
            location_info := some (locFromSel sd)
            status := "location_predefined" }) := by
  rw [_process_next_edit_request.eq_def, hx, hq]
  simp only [if_neg hty1, if_pos hty2, hsd]
  rw [if_neg hgood]

/-- Step equation: a request of unknown type errors out and the next request
is tried (unreachable from add_edit_request, which validates the type). -/
theorem processNext_eq_unknown (o : LLMOracle) (s : EditorState) (req : EditRequest)
    (rest : List EditRequest) (hx : s.active_edit_task = none)
    (hq : s.edit_request_queue = req :: rest) (hty1 : ¬ req.type = "hint_based")
    (hty2 : ¬ req.type = "selection_specific") :
    _process_next_edit_request o s =
      _process_next_edit_request o (clearTask
        (showError { s with edit_request_queue := rest, active_edit_task := some (mkTask req) }
          ("Task " ++ toString req.id ++ ": Unknown request type '" ++ req.type ++ "'"))) := by
  rw [_process_next_edit_request.eq_def, hx, hq]
  simp only [if_neg hty1, if_neg hty2]

theorem processNext_frame_aux (o : LLMOracle) : ∀ (n : Nat) (s : EditorState),
    s.edit_request_queue.length = n →
    (_process_next_edit_request o s).data = s.data ∧
    (_process_next_edit_request o s).snapshot = s.snapshot ∧
    (_process_next_edit_request o s).edit_results = s.edit_results ∧
    (_process_next_edit_request o s).next_id = s.next_id ∧
    (_process_next_edit_request o s).added_count = s.added_count ∧
    (_process_next_edit_request o s).llm_service = s.llm_service := by
  intro n
  induction n using Nat.strong_induction_on with
  | _ n ih =>
    intro s hn
    cases hx : s.active_edit_task with
    | some t => rw [processNext_eq_active o s t hx]; exact ⟨rfl, rfl, rfl, rfl, rfl, rfl⟩
    | none =>
      cases hq : s.edit_request_queue with
      | nil => rw [processNext_eq_nil o s hx hq]; exact ⟨rfl, rfl, rfl, rfl, rfl, rfl⟩
      | cons req rest =>
        have hlen : rest.length < n := by rw [hq] at hn; simp at hn; omega
        by_cases hty : req.type = "hint_based"
        · rw [processNext_eq_hint o s req rest hx hq hty]
          simp [setActive]
        · by_cases hty2 : req.type = "selection_specific"
          · cases hsd : req.selection_details with
            | none =>
              rw [processNext_eq_selNone o s req rest hx hq hty hty2 hsd]
              have := ih rest.length hlen
                (clearTask (showError
                  { s with edit_request_queue := rest, active_edit_task := some (mkTask req) }
                  ("Task " ++ toString req.id ++ ": Invalid selection_details provided.")))
                (by simp [clearTask, showError])
              simpa [clearTask, showError] using this
            | some sd =>
              by_cases hbad : (selIsEmpty sd = true ∨ ¬ selAllKeys sd = true)
              · rw [processNext_eq_selBad o s req rest sd hx hq hty hty2 hsd hbad]
                have := ih rest.length hlen
                  (clearTask (showError
                    { s with edit_request_queue := rest, active_edit_task := some (mkTask req) }
                    ("Task " ++ toString req.id ++ ": Invalid selection_details provided.")))
                  (by simp [clearTask, showError])
                simpa [clearTask, showError] using this
              · rw [processNext_eq_selGood o s req rest sd hx hq hty hty2 hsd hbad]
                simp [setActive]
          · rw [processNext_eq_unknown o s req rest hx hq hty hty2]
            have := ih rest.length hlen
              (clearTask (showError
                { s with edit_request_queue := rest, active_edit_task := some (mkTask req) }
                ("Task " ++ toString req.id ++ ": Unknown request type '" ++ req.type ++ "'")))
              (by simp [clearTask, showError])
            simpa [clearTask, showError] using this

@[simp] theorem processNext_data (o : LLMOracle) (s : EditorState) :
    (_process_next_edit_request o s).data = s.data := (processNext_frame_aux o _ s rfl).1

@[simp] theorem processNext_snapshot (o : LLMOracle) (s : EditorState) :
    (_process_next_edit_request o s).snapshot = s.snapshot := (processNext_frame_aux o _ s rfl).2.1

@[simp] theorem processNext_results (o : LLMOracle) (s : EditorState) :
    (_process_next_edit_request o s).edit_results = s.edit_results :=
  (processNext_frame_aux o _ s rfl).2.2.1

@[simp] theorem processNext_next_id (o : LLMOracle) (s : EditorState) :
    (_process_next_edit_request o s).next_id = s.next_id := (processNext_frame_aux o _ s rfl).2.2.2.1

@[simp] theorem processNext_added (o : LLMOracle) (s : EditorState) :
    (_process_next_edit_request o s).added_count = s.added_count :=
  (processNext_frame_aux o _ s rfl).2.2.2.2.1

@[simp] theorem processNext_llm (o : LLMOracle) (s : EditorState) :
    (_process_next_edit_request o s).llm_service = s.llm_service :=
  (processNext_frame_aux o _ s rfl).2.2.2.2.2

theorem processNext_inv_aux (o : LLMOracle) : ∀ (n : Nat) (s : EditorState),
    s.edit_request_queue.length = n → StateInv s → StateInv (_process_next_edit_request o s) := by
  intro n
  induction n using Nat.strong_induction_on with
  | _ n ih =>
    intro s hn hinv
    obtain ⟨⟨hpw, hlt, hact⟩, hcnt⟩ := hinv
    cases hx : s.active_edit_task with
    | some t => rw [processNext_eq_active o s t hx]; exact ⟨⟨hpw, hlt, hact⟩, hcnt⟩
    | none =>
      cases hq : s.edit_request_queue with
      | nil => rw [processNext_eq_nil o s hx hq]; exact ⟨⟨hpw, hlt, hact⟩, hcnt⟩
      | cons req rest =>
        rw [hq] at hpw hlt
        simp only [countOK, hq, hx, List.length_cons, Option.isSome_none] at hcnt
        simp only [List.map_cons, List.pairwise_cons] at hpw
        obtain ⟨hhead, hpwrest⟩ := hpw
        have hlen : rest.length < n := by rw [hq] at hn; simp at hn; omega
        have hltrest : ∀ r ∈ rest, r.id < s.next_id := fun r hr => hlt r (List.mem_cons_of_mem _ hr)
        have hmid : ∀ msg, StateInv (clearTask (showError
            { s with edit_request_queue := rest, active_edit_task := some (mkTask req) } msg)) := by
          intro msg
          refine ⟨⟨?_, ?_, ?_⟩, ?_⟩
          · simpa [clearTask, showError] using hpwrest
          · intro r hr
            simp only [clearTask, showError] at hr ⊢
            exact hltrest r hr
          · intro t' ht'
            simp [clearTask, showError] at ht'
          · simp only [countOK, clearTask, showError, Option.isSome_none]
            simp only [Bool.false_eq_true, if_false] at hcnt ⊢
            omega
        by_cases hty : req.type = "hint_based"
        · rw [processNext_eq_hint o s req rest hx hq hty]
          obtain ⟨t', ht', hid, hsnap⟩ := execLoc_active_some o
            (setActive { s with edit_request_queue := rest, active_edit_task := some (mkTask req) }
              { (mkTask req) with status := "locating_snippet" })
            { (mkTask req) with status := "locating_snippet" } (by simp [setActive])
          refine ⟨⟨?_, ?_, ?_⟩, ?_⟩
          · simpa [setActive] using hpwrest
          · intro r hr
            simp only [execLoc_queue, setActive] at hr
            simp only [execLoc_next_id, setActive]
            exact hltrest r hr
          · intro t'' ht''
            rw [ht'] at ht''
            cases ht''
            constructor
            · simp only [execLoc_next_id, setActive]
              rw [hid]
              exact hlt req (by simp)
            · intro r hr
              simp only [execLoc_queue, setActive] at hr
              rw [hid]
              simpa using hhead r.id (by simp; exact ⟨r, hr, rfl⟩)
          · simp only [countOK]
            rw [ht']
            simp only [execLoc_queue, execLoc_added, execLoc_terminal, setActive,
              Option.isSome_some, if_true]
            simp only [Bool.false_eq_true, if_false] at hcnt
            omega
        · by_cases hty2 : req.type = "selection_specific"
          · cases hsd : req.selection_details with
            | none =>
              rw [processNext_eq_selNone o s req rest hx hq hty hty2 hsd]
              exact ih rest.length hlen _ (by simp [clearTask, showError]) (hmid _)
            | some sd =>
              by_cases hbad : (selIsEmpty sd = true ∨ ¬ selAllKeys sd = true)
              · rw [processNext_eq_selBad o s req rest sd hx hq hty hty2 hsd hbad]
                exact ih rest.length hlen _ (by simp [clearTask, showError]) (hmid _)
              · rw [processNext_eq_selGood o s req rest sd hx hq hty hty2 hsd hbad]
                obtain ⟨t', ht', hid, hsnap⟩ := initiate_active_some o
                  (setActive { s with edit_request_queue := rest, active_edit_task := some (mkTask req) }
                    { (mkTask req) with
                      location_info := some (locFromSel sd)
                      status := "location_predefined" })
                  { (mkTask req) with
                    location_info := some (locFromSel sd)
                    status := "location_predefined" } (by simp [setActive])
                refine ⟨⟨?_, ?_, ?_⟩, ?_⟩
                · simpa [setActive] using hpwrest
                · intro r hr
                  simp only [initiate_queue, setActive] at hr
                  simp only [initiate_next_id, setActive]
                  exact hltrest r hr
                · intro t'' ht''
                  rw [ht'] at ht''
                  cases ht''
                  constructor
                  · simp only [initiate_next_id, setActive]
                    rw [hid]
                    exact hlt req (by simp)
                  · intro r hr
                    simp only [initiate_queue, setActive] at hr
                    rw [hid]
                    simpa using hhead r.id (by simp; exact ⟨r, hr, rfl⟩)
                · simp only [countOK]
                  rw [ht']
                  simp only [initiate_queue, initiate_added, initiate_terminal, setActive,
                    Option.isSome_some, if_true]
                  simp only [Bool.false_eq_true, if_false] at hcnt
                  omega
          · rw [processNext_eq_unknown o s req rest hx hq hty hty2]
            exact ih rest.length hlen _ (by simp [clearTask, showError]) (hmid _)

theorem snapOf_some (s : EditorState) (i : Nat) (t : ActiveTask)
    (h : s.active_edit_task = some t) :
    snapOf s i = if t.id = i then some t.original_content_snapshot else queueSnap s i := by
  simp [snapOf, h]

theorem snapOf_none_active (s : EditorState) (i : Nat) (h : s.active_edit_task = none) :
    snapOf s i = queueSnap s i := by
  simp [snapOf, h]

theorem processNext_snap_aux (o : LLMOracle) : ∀ (n : Nat) (s : EditorState),
    s.edit_request_queue.length = n →
    (s.edit_request_queue.map EditRequest.id).Pairwise (· < ·) →
    ∀ i, snapOf (_process_next_edit_request o s) i = snapOf s i ∨
      snapOf (_process_next_edit_request o s) i = none := by
  intro n
  induction n using Nat.strong_induction_on with
  | _ n ih =>
    intro s hn hpw i
    cases hx : s.active_edit_task with
    | some t => rw [processNext_eq_active o s t hx]; left; rfl
    | none =>
      cases hq : s.edit_request_queue with
      | nil => rw [processNext_eq_nil o s hx hq]; left; rfl
      | cons req rest =>
        rw [hq] at hpw
        simp only [List.map_cons, List.pairwise_cons] at hpw
        obtain ⟨hhead, hpwrest⟩ := hpw
        have hlen : rest.length < n := by rw [hq] at hn; simp at hn; omega
        have hsnap_s : snapOf s i = (if req.id = i then some req.content_snapshot
            else ((rest.find? (fun r => r.id = i)).map EditRequest.content_snapshot)) := by
          simp only [snapOf, hx, queueSnap, hq, List.find?_cons]
          by_cases hri : req.id = i
          · simp [hri]
          · simp [hri]
        have hfindnone : req.id = i → rest.find? (fun r => r.id = i) = none := by
          intro hri
          rw [List.find?_eq_none]
          intro r hr hcontra
          simp only [decide_eq_true_eq] at hcontra
          have := hhead r.id (by simp; exact ⟨r, hr, rfl⟩)
          omega
        by_cases hty : req.type = "hint_based"
        · rw [processNext_eq_hint o s req rest hx hq hty]
          obtain ⟨t', ht', hid, hsnap⟩ := execLoc_active_some o
            (setActive { s with edit_request_queue := rest, active_edit_task := some (mkTask req) }
              { (mkTask req) with status := "locating_snippet" })
            { (mkTask req) with status := "locating_snippet" } (by simp [setActive])
          have hid2 : t'.id = req.id := by simpa [mkTask] using hid
          have hsnap2 : t'.original_content_snapshot = req.content_snapshot := by
            simpa [mkTask] using hsnap
          left
          rw [snapOf_some _ i t' ht', hsnap_s]
          simp only [queueSnap, execLoc_queue, setActive]
          rw [hid2, hsnap2]
        · by_cases hty2 : req.type = "selection_specific"
          · cases hsd : req.selection_details with
            | none =>
              rw [processNext_eq_selNone o s req rest hx hq hty hty2 hsd]
              rcases ih rest.length hlen
                (clearTask (showError
                  { s with edit_request_queue := rest, active_edit_task := some (mkTask req) }
                  ("Task " ++ toString req.id ++ ": Invalid selection_details provided.")))
                (by simp [clearTask, showError])
                (by simpa [clearTask, showError] using hpwrest) i with hres | hres
              · rw [hres]
                have hmidsnap : snapOf (clearTask (showError
                    { s with edit_request_queue := rest, active_edit_task := some (mkTask req) }
                    ("Task " ++ toString req.id ++ ": Invalid selection_details provided."))) i =
                    ((rest.find? (fun r => r.id = i)).map EditRequest.content_snapshot) := by
                  simp [snapOf, clearTask, showError, queueSnap]
                rw [hmidsnap, hsnap_s]
                by_cases hri : req.id = i
                · right
                  rw [hfindnone hri]
                  rfl
                · left
                  simp [hri]
              · right; exact hres
            | some sd =>
              by_cases hbad : (selIsEmpty sd = true ∨ ¬ selAllKeys sd = true)
              · rw [processNext_eq_selBad o s req rest sd hx hq hty hty2 hsd hbad]
                rcases ih rest.length hlen
                  (clearTask (showError
                    { s with edit_request_queue := rest, active_edit_task := some (mkTask req) }
                    ("Task " ++ toString req.id ++ ": Invalid selection_details provided.")))
                  (by simp [clearTask, showError])
                  (by simpa [clearTask, showError] using hpwrest) i with hres | hres
                · rw [hres]
                  have hmidsnap : snapOf (clearTask (showError
                      { s with edit_request_queue := rest, active_edit_task := some (mkTask req) }
                      ("Task " ++ toString req.id ++ ": Invalid selection_details provided."))) i =
                      ((rest.find? (fun r => r.id = i)).map EditRequest.content_snapshot) := by
                    simp [snapOf, clearTask, showError, queueSnap]
                  rw [hmidsnap, hsnap_s]
                  by_cases hri : req.id = i
                  · right
                    rw [hfindnone hri]
                    rfl
                  · left
                    simp [hri]
                · right; exact hres
              · rw [processNext_eq_selGood o s req rest sd hx hq hty hty2 hsd hbad]
                obtain ⟨t', ht', hid, hsnap⟩ := initiate_active_some o
                  (setActive { s with edit_request_queue := rest, active_edit_task := some (mkTask req) }
                    { (mkTask req) with
                      location_info := some (locFromSel sd)
                      status := "location_predefined" })
                  { (mkTask req) with
                    location_info := some (locFromSel sd)
                    status := "location_predefined" } (by simp [setActive])
                have hid2 : t'.id = req.id := by simpa [mkTask] using hid
                have hsnap2 : t'.original_content_snapshot = req.content_snapshot := by
                  simpa [mkTask] using hsnap
                left
                rw [snapOf_some _ i t' ht', hsnap_s]
                simp only [queueSnap, initiate_queue, setActive]
                rw [hid2, hsnap2]
          · rw [processNext_eq_unknown o s req rest hx hq hty hty2]
            rcases ih rest.length hlen
              (clearTask (showError
                { s with edit_request_queue := rest, active_edit_task := some (mkTask req) }
                ("Task " ++ toString req.id ++ ": Unknown request type '" ++ req.type ++ "'")))
              (by simp [clearTask, showError])
              (by simpa [clearTask, showError] using hpwrest) i with hres | hres
            · rw [hres]
              have hmidsnap : snapOf (clearTask (showError
                  { s with edit_request_queue := rest, active_edit_task := some (mkTask req) }
                  ("Task " ++ toString req.id ++ ": Unknown request type '" ++ req.type ++ "'"))) i =
                  ((rest.find? (fun r => r.id = i)).map EditRequest.content_snapshot) := by
                simp [snapOf, clearTask, showError, queueSnap]
              rw [hmidsnap, hsnap_s]
              by_cases hri : req.id = i
              · right
                rw [hfindnone hri]
                rfl
              · left
                simp [hri]
            · right; exact hres

theorem stateInv_of_eq (s s' : EditorState)
    (hq : s'.edit_request_queue = s.edit_request_queue)
    (ha : s'.active_edit_task = s.active_edit_task)
    (hn : s'.next_id = s.next_id) (had : s'.added_count = s.added_count)
    (ht : s'.terminal_count = s.terminal_count) : StateInv s → StateInv s' := by
  rintro ⟨⟨hpw, hlt, hact⟩, hcnt⟩
  refine ⟨⟨?_, ?_, ?_⟩, ?_⟩
  · rw [hq]; exact hpw
  · intro r hr; rw [hq] at hr; rw [hn]; exact hlt r hr
  · intro t htt
    rw [ha] at htt
    obtain ⟨h1, h2⟩ := hact t htt
    exact ⟨by rw [hn]; exact h1, by rw [hq]; exact h2⟩
  · simp only [countOK, hq, ha, hn, had, ht]
    exact hcnt

theorem stateInv_setActive_sameId (s s' : EditorState) (t t' : ActiveTask)
    (hact : s.active_edit_task = some t) (hid : t'.id = t.id)
    (hq : s'.edit_request_queue = s.edit_request_queue)
    (ha : s'.active_edit_task = some t')
    (hn : s'.next_id = s.next_id) (had : s'.added_count = s.added_count)
    (hter : s'.terminal_count = s.terminal_count) : StateInv s → StateInv s' := by
  rintro ⟨⟨hpw, hlt, hactt⟩, hcnt⟩
  obtain ⟨hlt1, hlt2⟩ := hactt t hact
  refine ⟨⟨?_, ?_, ?_⟩, ?_⟩
  · rw [hq]; exact hpw
  · intro r hr; rw [hq] at hr; rw [hn]; exact hlt r hr
  · intro t'' htt
    rw [ha] at htt
    cases htt
    refine ⟨by rw [hn, hid]; exact hlt1, ?_⟩
    intro r hr
    rw [hq] at hr
    rw [hid]
    exact hlt2 r hr
  · simp only [countOK, hq, ha, hn, had, hter, Option.isSome_some]
    simp only [countOK, hact, Option.isSome_some] at hcnt
    exact hcnt

theorem stateInv_clear_of (s s' : EditorState) (t : ActiveTask)
    (hact : s.active_edit_task = some t)
    (hq : s'.edit_request_queue = s.edit_request_queue)
    (ha : s'.active_edit_task = none)
    (hn : s'.next_id = s.next_id) (had : s'.added_count = s.added_count)
    (hter : s'.terminal_count = s.terminal_count + 1) : StateInv s → StateInv s' := by
  rintro ⟨⟨hpw, hlt, hactt⟩, hcnt⟩
  refine ⟨⟨?_, ?_, ?_⟩, ?_⟩
  · rw [hq]; exact hpw
  · intro r hr; rw [hq] at hr; rw [hn]; exact hlt r hr
  · intro t'' htt; rw [ha] at htt; cases htt
  · simp only [countOK, hq, ha, hn, had, hter, Option.isSome_none]
    simp only [countOK, hact, Option.isSome_some, if_true] at hcnt
    simp only [Bool.false_eq_true, if_false]
    omega

theorem execLoc_inv (o : LLMOracle) (s : EditorState) :
    StateInv s → StateInv (_execute_llm_locator_attempt o s) := by
  intro hinv
  cases hx : s.active_edit_task with
  | none =>
    refine stateInv_of_eq s _ (by simp) ?_ (by simp) (by simp) (by simp) hinv
    rw [execLoc_active_none o s hx, hx]
  | some t =>
    obtain ⟨t', ht', hid, hsnap⟩ := execLoc_active_some o s t hx
    exact stateInv_setActive_sameId s _ t t' hx hid (by simp) ht' (by simp) (by simp) (by simp) hinv

theorem initiate_inv (o : LLMOracle) (s : EditorState) :
    StateInv s → StateInv (_initiate_llm_edit_for_task o s) := by
  intro hinv
  cases hx : s.active_edit_task with
  | none =>
    refine stateInv_of_eq s _ (by simp) ?_ (by simp) (by simp) (by simp) hinv
    rw [initiate_active_none o s hx, hx]
  | some t =>
    obtain ⟨t', ht', hid, hsnap⟩ := initiate_active_some o s t hx
    exact stateInv_setActive_sameId s _ t t' hx hid (by simp) ht' (by simp) (by simp) (by simp) hinv

theorem processNext_inv (o : LLMOracle) (s : EditorState) :
    StateInv s → StateInv (_process_next_edit_request o s) :=
  processNext_inv_aux o s.edit_request_queue.length s rfl

theorem showError_inv (s : EditorState) (msg : String) :
    StateInv s → StateInv (showError s msg) :=
  stateInv_of_eq s _ rfl rfl rfl rfl rfl

theorem enqueue_inv (s : EditorState) (instr ty : String) (hint : Option String)
    (sel : Option SelectionDetails) :
    StateInv s → StateInv (enqueue_new_request s instr ty hint sel) := by
  rintro ⟨⟨hpw, hlt, hact⟩, hcnt⟩
  refine ⟨⟨?_, ?_, ?_⟩, ?_⟩
  · simp only [enqueue_new_request, List.map_append, List.map_cons, List.map_nil]
    rw [List.pairwise_append]
    refine ⟨hpw, by simp, ?_⟩
    intro a ha b hb
    simp only [List.mem_singleton] at hb
    subst hb
    simp only [List.mem_map] at ha
    obtain ⟨r, hr, har⟩ := ha
    subst har
    exact hlt r hr
  · intro r hr
    simp only [enqueue_new_request, List.mem_append, List.mem_singleton] at hr
    simp only [enqueue_new_request]
    rcases hr with hr | hr
    · exact Nat.lt_succ_of_lt (hlt r hr)
    · subst hr; exact Nat.lt_succ_self _
  · intro t htt
    simp only [enqueue_new_request] at htt
    obtain ⟨h1, h2⟩ := hact t htt
    simp only [enqueue_new_request]
    refine ⟨Nat.lt_succ_of_lt h1, ?_⟩
    intro r hr
    simp only [List.mem_append, List.mem_singleton] at hr
    rcases hr with hr | hr
    · exact h2 r hr
    · subst hr; exact h1
  · simp only [countOK, enqueue_new_request, List.length_append, List.length_cons,
      List.length_nil]
    simp only [countOK] at hcnt
    omega

theorem add_inv (o : LLMOracle) (s : EditorState) (instr ty : String) (hint : Option String)
    (sel : Option SelectionDetails) :
    StateInv s → StateInv (add_edit_request o s instr ty hint sel) := by
  intro hinv
  unfold add_edit_request
  split_ifs with h1 h2 h3
  · exact showError_inv _ _ hinv
  · exact showError_inv _ _ hinv
  · exact showError_inv _ _ hinv
  · dsimp only
    split_ifs with h4
    · exact processNext_inv o _ (enqueue_inv s instr ty hint sel hinv)
    · exact enqueue_inv s instr ty hint sel hinv

theorem proceed_inv (o : LLMOracle) (s : EditorState) (conf : LocationInfo) :
    StateInv s → StateInv (proceed_with_edit_after_location_confirmation o s conf) := by
  intro hinv
  unfold proceed_with_edit_after_location_confirmation
  cases hx : s.active_edit_task with
  | none => exact showError_inv _ _ hinv
  | some t =>
    dsimp only
    split_ifs with hst hconf
    · exact showError_inv _ _ hinv
    · refine initiate_inv o _ ?_
      exact stateInv_setActive_sameId s _ t
        { t with location_info := some conf } hx rfl (by simp [setActive])
        (by simp [setActive]) (by simp [setActive]) (by simp [setActive]) (by simp [setActive]) hinv
    · exact stateInv_setActive_sameId s _ t
        { t with status := "error_in_location_confirmation" } hx rfl
        (by simp [setActive, showError]) (by simp [setActive])
        (by simp [setActive, showError]) (by simp [setActive, showError])
        (by simp [setActive, showError]) hinv

theorem retry_inv (o : LLMOracle) (s : EditorState) (nh ni : String) :
    StateInv s → StateInv (update_active_task_and_retry o s nh ni) := by
  intro hinv
  unfold update_active_task_and_retry
  cases hx : s.active_edit_task with
  | none => exact showError_inv _ _ hinv
  | some t =>
    dsimp only
    by_cases hst : t.status ≠ "awaiting_clarification"
    · rw [if_pos hst]; exact showError_inv _ _ hinv
    · rw [if_neg hst]
      refine execLoc_inv o _ ?_
      exact stateInv_setActive_sameId s _ t
        { t with
          user_hint := if nh ≠ "" then some nh else t.user_hint
          user_instruction := if ni ≠ "" then ni else t.user_instruction
          status := "locating_snippet"
          location_info := none
          llm_generated_snippet_details := none } hx rfl (by simp [setActive])
        (by simp [setActive]) (by simp [setActive]) (by simp [setActive]) (by simp [setActive]) hinv

theorem stateInv_clearTask (s s2 : EditorState) (t : ActiveTask)
    (hx : s.active_edit_task = some t)
    (hq : s2.edit_request_queue = s.edit_request_queue)
    (ha : s2.active_edit_task = s.active_edit_task)
    (hn : s2.next_id = s.next_id) (had : s2.added_count = s.added_count)
    (hter : s2.terminal_count = s.terminal_count) :
    StateInv s → StateInv (clearTask s2) := by
  intro hinv
  exact stateInv_clear_of s (clearTask s2) t hx (by simp [clearTask, hq])
    (by simp [clearTask]) (by simp [clearTask, hn]) (by simp [clearTask, had])
    (by simp [clearTask, hter]) hinv

theorem applyApprove_inv (o : LLMOracle) (s : EditorState) (t : ActiveTask)
    (d : SnippetDetails) (m : Option String) (a b : Nat)
    (hx : s.active_edit_task = some t) :
    StateInv s → StateInv (applyApprovedEdit o s t d m a b) := by
  intro hinv
  unfold applyApprovedEdit
  refine processNext_inv o _ ?_
  exact stateInv_clearTask s _ t hx rfl rfl rfl rfl rfl hinv

theorem decision_inv (o : LLMOracle) (s : EditorState) (dec : String) (m : Option String) :
    StateInv s → StateInv (process_llm_task_decision o s dec m) := by
  intro hinv
  unfold process_llm_task_decision
  cases hx : s.active_edit_task with
  | none => exact showError_inv _ _ hinv
  | some t =>
    dsimp only
    cases hd : t.llm_generated_snippet_details with
    | none => exact showError_inv _ _ hinv
    | some d =>
      dsimp only
      by_cases hst : t.status ≠ "awaiting_diff_approval"
      · rw [if_pos hst]; exact showError_inv _ _ hinv
      rw [if_neg hst]
      by_cases hap : dec = "approve"
      · rw [if_pos hap]
        by_cases hselb : (t.type = "selection_specific" ∧
            d.location_data_from_prior_step.is_selection_based = true)
        · rw [if_pos hselb]
          cases hconv : _convert_line_col_to_char_offsets t.original_content_snapshot
              (d.location_data_from_prior_step.start_line.getD 0)
              (d.location_data_from_prior_step.start_col.getD 0)
              (d.location_data_from_prior_step.end_line.getD 0)
              (d.location_data_from_prior_step.end_col.getD 0) with
          | ok p =>
            obtain ⟨a, b⟩ := p
            exact applyApprove_inv o s t d m a b hx hinv
          | error msg =>
            refine processNext_inv o _ ?_
            exact stateInv_clearTask s _ t hx (by simp [showError]) (by simp [showError])
              (by simp [showError]) (by simp [showError]) (by simp [showError]) hinv
        · rw [if_neg hselb]
          by_cases hhb : t.type = "hint_based"
          · rw [if_pos hhb]
            rcases hoff : (if d.location_data_from_prior_step.start_idx.isSome = true ∧
                  d.location_data_from_prior_step.end_idx.isSome = true then
                (d.location_data_from_prior_step.start_idx, d.location_data_from_prior_step.end_idx)
              else (d.start_legacy, d.end_legacy)) with ⟨oa, ob⟩
            cases oa with
            | some a =>
              cases ob with
              | some b => exact applyApprove_inv o s t d m a b hx hinv
              | none =>
                refine processNext_inv o _ ?_
                exact stateInv_clearTask s _ t hx (by simp [showError]) (by simp [showError])
                  (by simp [showError]) (by simp [showError]) (by simp [showError]) hinv
            | none =>
              refine processNext_inv o _ ?_
              exact stateInv_clearTask s _ t hx (by simp [showError]) (by simp [showError])
                (by simp [showError]) (by simp [showError]) (by simp [showError]) hinv
          · rw [if_neg hhb]
            refine processNext_inv o _ ?_
            exact stateInv_clearTask s _ t hx (by simp [showError]) (by simp [showError])
              (by simp [showError]) (by simp [showError]) (by simp [showError]) hinv
      · rw [if_neg hap]
        by_cases hrj : dec = "reject"
        · rw [if_pos hrj]
          exact stateInv_setActive_sameId s _ t { t with status := "awaiting_clarification" }
            hx rfl (by simp [setActive]) (by simp [setActive, hd]) (by simp [setActive])
            (by simp [setActive]) (by simp [setActive]) hinv
        · rw [if_neg hrj]
          by_cases hcl : dec = "cancel"
          · rw [if_pos hcl]
            refine processNext_inv o _ ?_
            exact stateInv_clearTask s _ t hx rfl (by rw [hx]) rfl rfl rfl hinv
          · rw [if_neg hcl]
            exact showError_inv _ _ hinv

theorem performAction_inv (s : EditorState) (name : String) (p : Payload) :
    StateInv s → StateInv (perform_action s name p) := by
  rintro hinv
  have happend : ∀ s', StateInv s' → StateInv { s' with edit_results := s'.edit_results ++
      [({ status := "action_" ++ name ++ "_success",
          message := "Action '" ++ name ++ "' performed." } : AuditEntry)] } := by
    intro s' h
    exact stateInv_of_eq s' _ rfl rfl rfl rfl rfl h
  unfold perform_action
  split_ifs with h1 h2 h3
  · exact happend _ (stateInv_of_eq s _ rfl rfl rfl rfl rfl hinv)
  · exact happend _ (stateInv_of_eq s _ rfl rfl rfl rfl rfl hinv)
  · refine happend _ ?_
    obtain ⟨⟨hpw, hlt, hact⟩, hcnt⟩ := hinv
    unfold handle_revert_changes
    cases hx : s.active_edit_task with
    | none =>
      refine ⟨⟨by simp, by simp, by simp⟩, ?_⟩
      simp only [countOK, hx] at hcnt ⊢
      simp only [Option.isSome_none, Bool.false_eq_true, if_false] at hcnt ⊢
      simp
      omega
    | some t =>
      refine ⟨⟨by simp [hx], by simp [hx], by simp [hx]⟩, ?_⟩
      simp only [countOK, hx] at hcnt ⊢
      simp only [Option.isSome_some, if_true] at hcnt
      simp [hx]
      omega
  · exact happend _ (showError_inv _ _ hinv)

theorem startSession_inv (o : LLMOracle) (s : EditorState) :
    StateInv s → StateInv (start_session o s) := by
  intro hinv
  unfold start_session
  refine processNext_inv o _ ?_
  dsimp only
  split_ifs <;> exact stateInv_of_eq s _ rfl rfl rfl rfl rfl hinv

theorem initState_inv (d : String ⊕ Document) (llm : Bool) : StateInv (initState d llm) := by
  refine ⟨⟨?_, ?_, ?_⟩, ?_⟩ <;> simp [initState, countOK]

theorem step_inv (s : EditorState) (e : Event) : StateInv s → StateInv (step s e) := by
  cases e with
  | startSession o => exact startSession_inv o s
  | addEditRequest o instr ty hint sel => exact add_inv o s instr ty hint sel
  | proceedLocation o conf => exact proceed_inv o s conf
  | decision o dec m => exact decision_inv o s dec m
  | retry o nh ni => exact retry_inv o s nh ni
  | performAction name p => exact performAction_inv s name p

theorem reachable_inv (s : EditorState) (h : Reachable s) : StateInv s := by
  induction h with
  | init d llm => exact initState_inv d llm
  | step s e hs ih => exact step_inv s e ih

theorem snap_eq_of_core (s s2 : EditorState) (t t2 : ActiveTask)
    (hx : s.active_edit_task = some t) (ha : s2.active_edit_task = some t2)
    (hid : t2.id = t.id) (hsn : t2.original_content_snapshot = t.original_content_snapshot)
    (hq : s2.edit_request_queue = s.edit_request_queue) :
    ∀ i, snapOf s2 i = snapOf s i := by
  intro i
  rw [snapOf_some s i t hx, snapOf_some s2 i t2 ha, hid, hsn]
  simp [queueSnap, hq]

theorem snapOf_queue_active_eq (s s2 : EditorState)
    (hq : s2.edit_request_queue = s.edit_request_queue)
    (ha : s2.active_edit_task = s.active_edit_task) :
    ∀ i, snapOf s2 i = snapOf s i := by
  intro i
  cases hx : s.active_edit_task with
  | none =>
    rw [snapOf_none_active s i hx, snapOf_none_active s2 i (by rw [ha, hx])]
    simp [queueSnap, hq]
  | some t =>
    rw [snapOf_some s i t hx, snapOf_some s2 i t (by rw [ha, hx])]
    simp [queueSnap, hq]

theorem snap_clear (s s2 : EditorState) (t : ActiveTask)
    (hx : s.active_edit_task = some t)
    (hqids : ∀ r ∈ s.edit_request_queue, t.id < r.id)
    (hq : s2.edit_request_queue = s.edit_request_queue)
    (ha : s2.active_edit_task = none) :
    ∀ i v, snapOf s i = some v → snapOf s2 i = some v ∨ snapOf s2 i = none := by
  intro i v hv
  rw [snapOf_some s i t hx] at hv
  rw [snapOf_none_active s2 i ha]
  by_cases hti : t.id = i
  · right
    simp only [queueSnap, hq]
    rw [List.find?_eq_none.mpr]
    · rfl
    · intro r hr hcontra
      simp only [decide_eq_true_eq] at hcontra
      have := hqids r hr
      omega
  · left
    rw [if_neg hti] at hv
    simp only [queueSnap, hq]
    simpa [queueSnap] using hv

theorem execLoc_snap (o : LLMOracle) (s : EditorState) :
    ∀ i, snapOf (_execute_llm_locator_attempt o s) i = snapOf s i := by
  intro i
  cases hx : s.active_edit_task with
  | none =>
    rw [snapOf_none_active _ i (execLoc_active_none o s hx), snapOf_none_active s i hx]
    simp [queueSnap]
  | some t =>
    obtain ⟨t2, ht2, hid, hsn⟩ := execLoc_active_some o s t hx
    exact snap_eq_of_core s _ t t2 hx ht2 hid hsn (by simp) i

theorem initiate_snap (o : LLMOracle) (s : EditorState) :
    ∀ i, snapOf (_initiate_llm_edit_for_task o s) i = snapOf s i := by
  intro i
  cases hx : s.active_edit_task with
  | none =>
    rw [snapOf_none_active _ i (initiate_active_none o s hx), snapOf_none_active s i hx]
    simp [queueSnap]
  | some t =>
    obtain ⟨t2, ht2, hid, hsn⟩ := initiate_active_some o s t hx
    exact snap_eq_of_core s _ t t2 hx ht2 hid hsn (by simp) i

theorem processNext_snap_of_eq (o : LLMOracle) (s X : EditorState)
    (hq : X.edit_request_queue = s.edit_request_queue)
    (ha : X.active_edit_task = s.active_edit_task)
    (hpw : (s.edit_request_queue.map EditRequest.id).Pairwise (· < ·)) :
    ∀ i v, snapOf s i = some v →
      snapOf (_process_next_edit_request o X) i = some v ∨
      snapOf (_process_next_edit_request o X) i = none := by
  intro i v hv
  rcases processNext_snap_aux o X.edit_request_queue.length X rfl (by rw [hq]; exact hpw) i
    with h | h
  · left; rw [h, snapOf_queue_active_eq s X hq ha i]; exact hv
  · right; exact h

theorem processNext_snap_of_clear (o : LLMOracle) (s X : EditorState) (t : ActiveTask)
    (hx : s.active_edit_task = some t)
    (hqids : ∀ r ∈ s.edit_request_queue, t.id < r.id)
    (hpw : (s.edit_request_queue.map EditRequest.id).Pairwise (· < ·))
    (hq : X.edit_request_queue = s.edit_request_queue)
    (ha : X.active_edit_task = none) :
    ∀ i v, snapOf s i = some v →
      snapOf (_process_next_edit_request o X) i = some v ∨
      snapOf (_process_next_edit_request o X) i = none := by
  intro i v hv
  rcases snap_clear s X t hx hqids hq ha i v hv with h2 | h2
  · rcases processNext_snap_aux o X.edit_request_queue.length X rfl (by rw [hq]; exact hpw) i
      with h | h
    · left; rw [h]; exact h2
    · right; exact h
  · rcases processNext_snap_aux o X.edit_request_queue.length X rfl (by rw [hq]; exact hpw) i
      with h | h
    · right; rw [h]; exact h2
    · right; exact h

theorem queueSnap_append (s X : EditorState) (r0 : EditRequest)
    (hq : X.edit_request_queue = s.edit_request_queue ++ [r0]) (i : Nat) (v : String)
    (hv : queueSnap s i = some v) : queueSnap X i = some v := by
  simp only [queueSnap, hq] at hv ⊢
  rw [List.find?_append]
  cases hfind : s.edit_request_queue.find? (fun r => r.id = i) with
  | none => rw [hfind] at hv; simp at hv
  | some r => rw [hfind] at hv; simp at hv ⊢; exact hv

theorem step_snap (s : EditorState) (e : Event) (hinv : StateInv s) :
    ∀ i v, snapOf s i = some v →
      snapOf (step s e) i = some v ∨ snapOf (step s e) i = none := by
  obtain ⟨⟨hpw, hlt, hact⟩, hcnt⟩ := hinv
  cases e with
  | startSession o =>
    intro i v hv
    simp only [step]
    unfold start_session
    dsimp only
    split_ifs <;>
      (apply processNext_snap_of_eq o s <;> first | rfl | exact hpw | exact hv)
  | addEditRequest o instr ty hint sel =>
    intro i v hv
    simp only [step]
    unfold add_edit_request
    split_ifs with h1 h2 h3
    · left; rw [← hv]; exact snapOf_queue_active_eq s _ rfl rfl i
    · left; rw [← hv]; exact snapOf_queue_active_eq s _ rfl rfl i
    · left; rw [← hv]; exact snapOf_queue_active_eq s _ rfl rfl i
    · dsimp only
      have hpw2 : ((enqueue_new_request s instr ty hint sel).edit_request_queue.map
          EditRequest.id).Pairwise (· < ·) := by
        simp only [enqueue_new_request, List.map_append, List.map_cons, List.map_nil]
        rw [List.pairwise_append]
        refine ⟨hpw, by simp, ?_⟩
        intro a ha b hb
        simp only [List.mem_singleton] at hb
        subst hb
        simp only [List.mem_map] at ha
        obtain ⟨r, hr, har⟩ := ha
        subst har
        exact hlt r hr
      have hv2 : snapOf (enqueue_new_request s instr ty hint sel) i = some v := by
        cases hx : s.active_edit_task with
        | some t =>
          rw [snapOf_some s i t hx] at hv
          rw [snapOf_some (enqueue_new_request s instr ty hint sel) i t
            (by simp [enqueue_new_request, hx])]
          by_cases hti : t.id = i
          · rwa [if_pos hti] at hv ⊢
          · rw [if_neg hti] at hv ⊢
            exact queueSnap_append s (enqueue_new_request s instr ty hint sel)
              { id := s.next_id, type := ty, instruction := instr,
                content_snapshot := current_main_content s, hint := hint,
                selection_details := sel, status := "queued" } rfl i v hv
        | none =>
          rw [snapOf_none_active s i hx] at hv
          rw [snapOf_none_active (enqueue_new_request s instr ty hint sel) i
            (by simp [enqueue_new_request, hx])]
          exact queueSnap_append s (enqueue_new_request s instr ty hint sel)
            { id := s.next_id, type := ty, instruction := instr,
              content_snapshot := current_main_content s, hint := hint,
              selection_details := sel, status := "queued" } rfl i v hv
      split_ifs with h4
      · exact processNext_snap_of_eq o _ _ rfl rfl hpw2 i v hv2
      · left; exact hv2
  | proceedLocation o conf =>
    intro i v hv
    simp only [step]
    unfold proceed_with_edit_after_location_confirmation
    cases hx : s.active_edit_task with
    | none =>
      left
      rw [← hv]
      exact snapOf_queue_active_eq s _ rfl rfl i
    | some t =>
      dsimp only
      split_ifs with hst hconf
      · left
        rw [← hv]
        exact snapOf_queue_active_eq s _ rfl rfl i
      · left
        rw [initiate_snap o _ i,
          snap_eq_of_core s _ t { t with location_info := some conf } hx (by simp [setActive])
            rfl rfl (by simp [setActive]) i]
        exact hv
      · left
        rw [snap_eq_of_core s _ t { t with status := "error_in_location_confirmation" } hx
          (by simp [setActive]) rfl rfl (by simp [setActive, showError]) i]
        exact hv
  | decision o dec m =>
    intro i v hv
    simp only [step]
    unfold process_llm_task_decision
    cases hx : s.active_edit_task with
    | none =>
      left
      rw [← hv]
      exact snapOf_queue_active_eq s _ rfl rfl i
    | some t =>
      have hqids := (hact t hx).2
      dsimp only
      cases hd : t.llm_generated_snippet_details with
      | none =>
        left
        rw [← hv]
        exact snapOf_queue_active_eq s _ rfl rfl i
      | some d =>
        dsimp only
        by_cases hst : t.status ≠ "awaiting_diff_approval"
        · rw [if_pos hst]
          left
          rw [← hv]
          exact snapOf_queue_active_eq s _ rfl rfl i
        rw [if_neg hst]
        by_cases hap : dec = "approve"
        · rw [if_pos hap]
          by_cases hselb : (t.type = "selection_specific" ∧
              d.location_data_from_prior_step.is_selection_based = true)
          · rw [if_pos hselb]
            cases hconv : _convert_line_col_to_char_offsets t.original_content_snapshot
                (d.location_data_from_prior_step.start_line.getD 0)
                (d.location_data_from_prior_step.start_col.getD 0)
                (d.location_data_from_prior_step.end_line.getD 0)
                (d.location_data_from_prior_step.end_col.getD 0) with
            | ok p =>
              obtain ⟨a, b⟩ := p
              unfold applyApprovedEdit
              exact processNext_snap_of_clear o s _ t hx hqids hpw
                (by simp [clearTask]) (by simp [clearTask]) i v hv
            | error msg =>
              exact processNext_snap_of_clear o s _ t hx hqids hpw
                (by simp [clearTask, showError]) (by simp [clearTask]) i v hv
          · rw [if_neg hselb]
            by_cases hhb : t.type = "hint_based"
            · rw [if_pos hhb]
              rcases hoff : (if d.location_data_from_prior_step.start_idx.isSome = true ∧
                    d.location_data_from_prior_step.end_idx.isSome = true then
                  (d.location_data_from_prior_step.start_idx,
                    d.location_data_from_prior_step.end_idx)
                else (d.start_legacy, d.end_legacy)) with ⟨oa, ob⟩
              cases oa with
              | some a =>
                cases ob with
                | some b =>
                  unfold applyApprovedEdit
                  exact processNext_snap_of_clear o s _ t hx hqids hpw
                    (by simp [clearTask]) (by simp [clearTask]) i v hv
                | none =>
                  exact processNext_snap_of_clear o s _ t hx hqids hpw
                    (by simp [clearTask, showError]) (by simp [clearTask]) i v hv
              | none =>
                exact processNext_snap_of_clear o s _ t hx hqids hpw
                  (by simp [clearTask, showError]) (by simp [clearTask]) i v hv
            · rw [if_neg hhb]
              exact processNext_snap_of_clear o s _ t hx hqids hpw
                (by simp [clearTask, showError]) (by simp [clearTask]) i v hv
        · rw [if_neg hap]
          by_cases hrj : dec = "reject"
          · rw [if_pos hrj]
            left
            rw [snap_eq_of_core s _ t { t with status := "awaiting_clarification" } hx
              (by simp [setActive, hd]) rfl rfl (by simp [setActive]) i]
            exact hv
          · rw [if_neg hrj]
            by_cases hcl : dec = "cancel"
            · rw [if_pos hcl]
              exact processNext_snap_of_clear o s _ t hx hqids hpw
                (by simp [clearTask]) (by simp [clearTask]) i v hv
            · rw [if_neg hcl]
              left
              rw [← hv]
              exact snapOf_queue_active_eq s _ rfl rfl i
  | retry o nh ni =>
    intro i v hv
    simp only [step]
    unfold update_active_task_and_retry
    cases hx : s.active_edit_task with
    | none =>
      left
      rw [← hv]
      exact snapOf_queue_active_eq s _ rfl rfl i
    | some t =>
      dsimp only
      by_cases hst : t.status ≠ "awaiting_clarification"
      · rw [if_pos hst]
        left
        rw [← hv]
        exact snapOf_queue_active_eq s _ rfl rfl i
      · rw [if_neg hst]
        left
        rw [execLoc_snap o _ i,
          snap_eq_of_core s _ t
            { t with
              user_hint := if nh ≠ "" then some nh else t.user_hint
              user_instruction := if ni ≠ "" then ni else t.user_instruction
              status := "locating_snippet"
              location_info := none
              llm_generated_snippet_details := none } hx (by simp [setActive]) rfl rfl
            (by simp [setActive]) i]
        exact hv
  | performAction name p =>
    intro i v hv
    simp only [step]
    unfold perform_action
    dsimp only
    have happ : ∀ X : EditorState, snapOf X i = some v →
        snapOf { X with edit_results := X.edit_results ++
          [({ status := "action_" ++ name ++ "_success",
              message := "Action '" ++ name ++ "' performed." } : AuditEntry)] } i = some v := by
      intro X hX
      rw [← hX]
      exact snapOf_queue_active_eq X _ rfl rfl i
    split_ifs with h1 h2 h3
    · left
      apply happ
      rw [snapOf_queue_active_eq s (handle_approve_main_content s p) rfl rfl i]
      exact hv
    · left
      apply happ
      rw [snapOf_queue_active_eq s (handle_increment_version s) rfl rfl i]
      exact hv
    · right
      unfold handle_revert_changes
      cases hx : s.active_edit_task <;>
        simp [snapOf, queueSnap, hx, clearTask]
    · left
      apply happ
      rw [snapOf_queue_active_eq s (handle_unknown_action s p) rfl rfl i]
      exact hv

/-! # Claim theorems -/

/-- C5 Queue accounting invariant: at every reachable state, the number of
requests added via add_edit_request that have not yet reached a terminal
outcome (added_count - terminal_count, by the ghost instrumentation
described in the module header) equals the queue length plus one when a
task is active; this holds across every operation, including
perform_action("revert_changes"), which clears the queue and discards the
active task. -/
theorem C5_queue_accounting (s : EditorState) (h : Reachable s) :
    s.added_count = s.terminal_count + s.edit_request_queue.length +
      (if s.active_edit_task.isSome then 1 else 0) :=
  (reachable_inv s h).2

/-- C5 witness: the invariant at a freshly constructed session. -/
theorem C5_witness :
    (initState (Sum.inl "x") true).added_count =
      (initState (Sum.inl "x") true).terminal_count +
      (initState (Sum.inl "x") true).edit_request_queue.length +
      (if (initState (Sum.inl "x") true).active_edit_task.isSome then 1 else 0) :=
  C5_queue_accounting (initState (Sum.inl "x") true) (Reachable.init (Sum.inl "x") true)

/-- C8 Revert correctness: after perform_action("revert_changes", payload),
for any payload and any state, the main content field, original content
field and version of the document equal their values in the session-start
snapshot, the edit-request queue is empty, and no active task remains. -/
theorem C8_revert_restores_session_start (s : EditorState) (p : Payload) :
    (step s (.performAction "revert_changes" p)).data.main = s.snapshot.main ∧
    (step s (.performAction "revert_changes" p)).data.original = s.snapshot.original ∧
    (step s (.performAction "revert_changes" p)).data.version = s.snapshot.version ∧
    (step s (.performAction "revert_changes" p)).edit_request_queue = [] ∧
    (step s (.performAction "revert_changes" p)).active_edit_task = none := by
  simp only [step, perform_action]
  rw [if_neg (by decide), if_neg (by decide)]
  simp only [if_true]
  unfold handle_revert_changes
  cases hx : s.active_edit_task <;> simp

/-- C9 Wrong-state calls are error-reporting no-ops: confirming a location
with no task awaiting location confirmation, deciding on a task that is not
awaiting diff approval with snippet details, or supplying clarification
with no task awaiting clarification, each only reports an error through
show_error: the resulting state is the old state with one more error
message, so the document, the queue and the active task are unchanged. -/
theorem C9_wrong_state_noop (o : LLMOracle) (s : EditorState) :
    ((∀ t, s.active_edit_task = some t → t.status ≠ "awaiting_location_confirmation") →
      ∀ conf, step s (.proceedLocation o conf) =
        { s with errors := s.errors ++
          ["Proceed with edit (after location confirm) called in an invalid state."] }) ∧
    ((∀ t, s.active_edit_task = some t →
        ¬ (t.status = "awaiting_diff_approval" ∧ t.llm_generated_snippet_details ≠ none)) →
      ∀ dec m, step s (.decision o dec m) =
        { s with errors := s.errors ++ [decisionStateErrMsg] }) ∧
    ((∀ t, s.active_edit_task = some t → t.status ≠ "awaiting_clarification") →
      ∀ nh ni, step s (.retry o nh ni) =
        { s with errors := s.errors ++ [clarifyErrMsg] }) := by
  refine ⟨?_, ?_, ?_⟩
  · intro h conf
    simp only [step]
    unfold proceed_with_edit_after_location_confirmation
    cases hx : s.active_edit_task with
    | none => simp [showError, hx]
    | some t =>
      dsimp only
      rw [if_pos (h t hx)]
      simp [showError, hx]
  · intro h dec m
    simp only [step]
    unfold process_llm_task_decision
    cases hx : s.active_edit_task with
    | none => simp [showError, hx]
    | some t =>
      dsimp only
      cases hd : t.llm_generated_snippet_details with
      | none => simp [showError, hx]
      | some d =>
        dsimp only
        have hns : t.status ≠ "awaiting_diff_approval" := by
          intro hcontra
          exact h t hx ⟨hcontra, by rw [hd]; exact Option.some_ne_none d⟩
        rw [if_pos hns]
        simp [showError, hx]
  · intro h nh ni
    simp only [step]
    unfold update_active_task_and_retry
    cases hx : s.active_edit_task with
    | none => simp [showError, hx]
    | some t =>
      dsimp only
      rw [if_pos (h t hx)]
      simp [showError, hx]

/-- C10 add_edit_request input validation: a request type outside
hint_based/selection_specific, a hint_based request without a hint, or a
selection_specific request without selection details is rejected with an
error message through show_error and nothing else happens: no request is
enqueued and the document, the queue and the active task are unchanged. -/
theorem C10_add_request_validation (o : LLMOracle) (s : EditorState)
    (instruction request_type : String) (hint : Option String)
    (sel : Option SelectionDetails)
    (h : (request_type ≠ "hint_based" ∧ request_type ≠ "selection_specific") ∨
         (request_type = "hint_based" ∧ hint = none) ∨
         (request_type = "selection_specific" ∧ sel = none)) :
    ∃ msg, step s (.addEditRequest o instruction request_type hint sel) =
      { s with errors := s.errors ++ [msg] } := by
  simp only [step]
  unfold add_edit_request
  rcases h with h | h | h
  · rw [if_pos h]
    exact ⟨_, rfl⟩
  · obtain ⟨hty, hh⟩ := h
    subst hty
    rw [if_neg (by simp), if_pos ⟨rfl, hh⟩]
    exact ⟨_, rfl⟩
  · obtain ⟨hty, hh⟩ := h
    subst hty
    rw [if_neg (by simp), if_neg (by simp), if_pos ⟨rfl, hh⟩]
    exact ⟨_, rfl⟩

/-- C10 witness: a request of unknown type "bogus" is rejected and only the
error log grows. -/
theorem C10_witness :
    ((("bogus" : String) ≠ "hint_based" ∧ ("bogus" : String) ≠ "selection_specific") ∨
      (("bogus" : String) = "hint_based" ∧ (none : Option String) = none) ∨
      (("bogus" : String) = "selection_specific" ∧ (none : Option SelectionDetails) = none)) ∧
    ∃ msg, step sampleState (.addEditRequest sampleOracle "instr" "bogus" none none) =
      { sampleState with errors := sampleState.errors ++ [msg] } :=
  ⟨Or.inl (by decide),
   C10_add_request_validation sampleOracle sampleState "instr" "bogus" none none
     (Or.inl (by decide))⟩

/-- C2 Single-flight FIFO processing: the active task is a single optional
field, so at most one task is ever active; at every reachable state the
queued ids strictly increase from head to tail and the active task (when
present) is older than every queued request, so for two requests A added
before B, B is never dequeued — and its locator and editor steps, which run
only on the active task, never run — before A reaches a terminal outcome;
_process_next_edit_request is a no-op when a task is active or the queue is
empty; and a valid add_edit_request appends the new request (with its
snapshot) to the queue tail and dequeues only when no task is active. -/
theorem C2_single_flight_fifo (s : EditorState) (h : Reachable s) :
    (s.active_edit_task = none ∨ ∃ t, s.active_edit_task = some t) ∧
    ((s.edit_request_queue.map EditRequest.id).Pairwise (· < ·) ∧
      ∀ t, s.active_edit_task = some t → ∀ r ∈ s.edit_request_queue, t.id < r.id) ∧
    (∀ o : LLMOracle, s.active_edit_task.isSome → _process_next_edit_request o s = s) ∧
    (∀ o : LLMOracle, s.edit_request_queue = [] → _process_next_edit_request o s = s) ∧
    (∀ (o : LLMOracle) instruction request_type hint sel,
      (request_type = "hint_based" ∧ hint ≠ none) ∨
      (request_type = "selection_specific" ∧ sel ≠ none) →
      step s (.addEditRequest o instruction request_type hint sel) =
        (if (enqueue_new_request s instruction request_type hint sel).active_edit_task = none
         then _process_next_edit_request o (enqueue_new_request s instruction request_type hint sel)
         else enqueue_new_request s instruction request_type hint sel)) := by
  obtain ⟨⟨hpw, hlt, hact⟩, hcnt⟩ := reachable_inv s h
  refine ⟨?_, ⟨hpw, fun t ht => (hact t ht).2⟩, ?_, ?_, ?_⟩
  · cases hx : s.active_edit_task with
    | none => exact Or.inl rfl
    | some t => exact Or.inr ⟨t, rfl⟩
  · intro o hs
    obtain ⟨t, ht⟩ := Option.isSome_iff_exists.mp hs
    exact processNext_eq_active o s t ht
  · intro o hq
    cases hx : s.active_edit_task with
    | none => exact processNext_eq_nil o s hx hq
    | some t => exact processNext_eq_active o s t hx
  · intro o instruction request_type hint sel hvalid
    simp only [step]
    unfold add_edit_request
    rcases hvalid with ⟨hty, hh⟩ | ⟨hty, hh⟩ <;> subst hty
    · rw [if_neg (by simp), if_neg (by simp [hh]), if_neg (by simp)]
    · rw [if_neg (by simp), if_neg (by simp), if_neg (by simp [hh])]

/-- C2 witness: the FIFO id discipline at a freshly constructed session. -/
theorem C2_witness :
    ((initState (Sum.inl "x") true).edit_request_queue.map EditRequest.id).Pairwise (· < ·) ∧
    ∀ t, (initState (Sum.inl "x") true).active_edit_task = some t →
      ∀ r ∈ (initState (Sum.inl "x") true).edit_request_queue, t.id < r.id :=
  (C2_single_flight_fifo (initState (Sum.inl "x") true)
    (Reachable.init (Sum.inl "x") true)).2.1

/-- C3 Snapshot immutability: at every reachable state, every operation
either keeps a held content snapshot exactly as it is (the request may move
from queue to active task but its snapshot value never changes) or disposes
of the request entirely; in particular update_active_task_and_retry after a
rejection keeps the active task with its original content_snapshot, so the
repeated locator and editor steps read the same snapshot, never a re-taken
one (the locator only ever reads the active task's
original_content_snapshot field). -/
theorem C3_snapshot_immutable (s : EditorState) (h : Reachable s) :
    (∀ (e : Event) (i : Nat) (v : String), snapOf s i = some v →
      snapOf (step s e) i = some v ∨ snapOf (step s e) i = none) ∧
    (∀ (o : LLMOracle) (nh ni : String) (t : ActiveTask), s.active_edit_task = some t →
      ∃ t2, (step s (.retry o nh ni)).active_edit_task = some t2 ∧
        t2.original_content_snapshot = t.original_content_snapshot) := by
  constructor
  · intro e
    exact step_snap s e (reachable_inv s h)
  · intro o nh ni t hx
    simp only [step]
    unfold update_active_task_and_retry
    cases hx2 : s.active_edit_task with
    | none => rw [hx2] at hx; cases hx
    | some t1 =>
      rw [hx2] at hx
      cases hx
      dsimp only
      by_cases hst : t.status ≠ "awaiting_clarification"
      · rw [if_pos hst]
        exact ⟨t, by simp [showError, hx2], rfl⟩
      · rw [if_neg hst]
        obtain ⟨t2, ht2, hid, hsn⟩ := execLoc_active_some o
          (setActive s
            { t with
              user_hint := if nh ≠ "" then some nh else t.user_hint
              user_instruction := if ni ≠ "" then ni else t.user_instruction
              status := "locating_snippet"
              location_info := none
              llm_generated_snippet_details := none })
          { t with
            user_hint := if nh ≠ "" then some nh else t.user_hint
            user_instruction := if ni ≠ "" then ni else t.user_instruction
            status := "locating_snippet"
            location_info := none
            llm_generated_snippet_details := none } (by simp [setActive])
        exact ⟨t2, ht2, hsn⟩

/-- C3 witness: snapshot stability at a freshly constructed session. -/
theorem C3_witness :
    (∀ (e : Event) (i : Nat) (v : String),
      snapOf (initState (Sum.inl "x") true) i = some v →
      snapOf (step (initState (Sum.inl "x") true) e) i = some v ∨
      snapOf (step (initState (Sum.inl "x") true) e) i = none) ∧
    (∀ (o : LLMOracle) (nh ni : String) (t : ActiveTask),
      (initState (Sum.inl "x") true).active_edit_task = some t →
      ∃ t2, (step (initState (Sum.inl "x") true) (.retry o nh ni)).active_edit_task = some t2 ∧
        t2.original_content_snapshot = t.original_content_snapshot) :=
  C3_snapshot_immutable (initState (Sum.inl "x") true) (Reachable.init (Sum.inl "x") true)

/-- C1 Approve correctness: for an active task awaiting diff approval with
snapshot S and resolved offsets a, b (approveOffsets: the offset converter
on the snapshot for a selection-based location, the stored start_idx and
end_idx, or the legacy start/end keys, for a hint-based task),
process_llm_task_decision("approve", m) writes S[:a] ++ R ++ S[b:] into the
main content field, where R is the manual override m when given and the
LLM-edited snippet otherwise; it appends exactly one audit entry, clears
the active task and hands over to _process_next_edit_request. -/
theorem C1_approve_applies_splice (o : LLMOracle) (s : EditorState) (t : ActiveTask)
    (d : SnippetDetails) (m : Option String) (a b : Nat)
    (hx : s.active_edit_task = some t)
    (hst : t.status = "awaiting_diff_approval")
    (hd : t.llm_generated_snippet_details = some d)
    (hoff : approveOffsets t d = (some a, some b)) :
    step s (.decision o "approve" m) =
      _process_next_edit_request o (clearTask
        { s with
          data := { s.data with main := some (spliceContent t.original_content_snapshot a
            (m.getD d.edited_snippet) b) }
          edit_results := s.edit_results ++ [approveEntry t] }) ∧
    current_main_content (step s (.decision o "approve" m)) =
      spliceContent t.original_content_snapshot a (m.getD d.edited_snippet) b ∧
    (step s (.decision o "approve" m)).edit_results = s.edit_results ++ [approveEntry t] ∧
    (step s (.decision o "approve" m)).active_edit_task =
      (_process_next_edit_request o (clearTask
        { s with
          data := { s.data with main := some (spliceContent t.original_content_snapshot a
            (m.getD d.edited_snippet) b) }
          edit_results := s.edit_results ++ [approveEntry t] })).active_edit_task := by
  have happly : applyApprovedEdit o s t d m a b =
      _process_next_edit_request o (clearTask
        { s with
          data := { s.data with main := some (spliceContent t.original_content_snapshot a
            (m.getD d.edited_snippet) b) }
          edit_results := s.edit_results ++ [approveEntry t] }) := by
    unfold applyApprovedEdit
    cases m <;> rfl
  have hmain : step s (.decision o "approve" m) = applyApprovedEdit o s t d m a b := by
    simp only [step]
    unfold process_llm_task_decision
    cases hx2 : s.active_edit_task with
    | none => rw [hx2] at hx; cases hx
    | some t1 =>
      rw [hx2] at hx
      cases hx
      dsimp only
      cases hd2 : t.llm_generated_snippet_details with
      | none => rw [hd2] at hd; cases hd
      | some d1 =>
        rw [hd2] at hd
        cases hd
        dsimp only
        rw [if_neg (by rw [hst]; simp), if_pos rfl]
        unfold approveOffsets at hoff
        by_cases hselb : (t.type = "selection_specific" ∧
            d.location_data_from_prior_step.is_selection_based = true)
        · rw [if_pos hselb]
          rw [if_pos hselb] at hoff
          cases hconv : _convert_line_col_to_char_offsets t.original_content_snapshot
              (d.location_data_from_prior_step.start_line.getD 0)
              (d.location_data_from_prior_step.start_col.getD 0)
              (d.location_data_from_prior_step.end_line.getD 0)
              (d.location_data_from_prior_step.end_col.getD 0) with
          | ok p =>
            rw [hconv] at hoff
            obtain ⟨a1, b1⟩ := p
            simp only [Prod.mk.injEq, Option.some.injEq] at hoff
            obtain ⟨ha1, hb1⟩ := hoff
            subst ha1
            subst hb1
            rfl
          | error msg =>
            rw [hconv] at hoff
            simp at hoff
        · rw [if_neg hselb]
          rw [if_neg hselb] at hoff
          by_cases hhb : t.type = "hint_based"
          · rw [if_pos hhb]
            rw [if_pos hhb] at hoff
            by_cases hboth : (d.location_data_from_prior_step.start_idx.isSome = true ∧
                d.location_data_from_prior_step.end_idx.isSome = true)
            · rw [if_pos hboth] at hoff
              rw [if_pos hboth, hoff]
            · rw [if_neg hboth] at hoff
              rw [if_neg hboth, hoff]
          · rw [if_neg hhb]
            rw [if_neg hhb] at hoff
            simp at hoff
  rw [hmain, happly]
  refine ⟨rfl, ?_, ?_, rfl⟩
  · simp [current_main_content, clearTask]
  · simp [clearTask]

/-- C1 witness: approving the sample task splices the bolded snippet into
the snapshot "The quick fox.". -/
theorem C1_witness :
    current_main_content (step sampleState (.decision sampleOracle "approve" none)) =
      spliceContent "The quick fox." 4 "**quick fox**" 13 ∧
    spliceContent "The quick fox." 4 "**quick fox**" 13 = "The **quick fox**." :=
  ⟨(C1_approve_applies_splice sampleOracle sampleState sampleTask sampleDetails none 4 13
      rfl rfl rfl rfl).2.1, by decide⟩

/-- C7 (amended) Cancel correctness: cancelling an active task that awaits
diff approval performs no document mutation — the whole document, and in
particular the main content, is bit-identical to the document immediately
before the cancel (not necessarily to the content at the moment the
request was created, which intervening actions or earlier approvals may
have changed) — the task is discarded, a cancelled audit entry is
appended, and the queue advances through _process_next_edit_request. -/
theorem C7_cancel_no_document_mutation (o : LLMOracle) (s : EditorState) (t : ActiveTask)
    (d : SnippetDetails) (m : Option String)
    (hx : s.active_edit_task = some t)
    (hst : t.status = "awaiting_diff_approval")
    (hd : t.llm_generated_snippet_details = some d) :
    step s (.decision o "cancel" m) =
      _process_next_edit_request o (clearTask
        { s with edit_results := s.edit_results ++ [cancelEntry t] }) ∧
    (step s (.decision o "cancel" m)).data = s.data ∧
    current_main_content (step s (.decision o "cancel" m)) = current_main_content s ∧
    (step s (.decision o "cancel" m)).edit_results = s.edit_results ++ [cancelEntry t] := by
  have hmain : step s (.decision o "cancel" m) =
      _process_next_edit_request o (clearTask
        { s with edit_results := s.edit_results ++ [cancelEntry t] }) := by
    simp only [step]
    unfold process_llm_task_decision
    cases hx2 : s.active_edit_task with
    | none => rw [hx2] at hx; cases hx
    | some t1 =>
      rw [hx2] at hx
      cases hx
      dsimp only
      cases hd2 : t.llm_generated_snippet_details with
      | none => rw [hd2] at hd; cases hd
      | some d1 =>
        rw [hd2] at hd
        cases hd
        dsimp only
        rw [if_neg (by rw [hst]; simp), if_neg (by decide), if_neg (by decide), if_pos rfl]
  rw [hmain]
  refine ⟨rfl, ?_, ?_, ?_⟩
  · simp [clearTask]
  · simp [current_main_content, clearTask]
  · simp [clearTask]

/-- C7 witness: cancelling the sample task leaves the document unchanged. -/
theorem C7_witness :
    (step sampleState (.decision sampleOracle "cancel" none)).data = sampleState.data ∧
    current_main_content (step sampleState (.decision sampleOracle "cancel" none)) =
      current_main_content sampleState :=
  ⟨(C7_cancel_no_document_mutation sampleOracle sampleState sampleTask sampleDetails none
      rfl rfl rfl).2.1,
   (C7_cancel_no_document_mutation sampleOracle sampleState sampleTask sampleDetails none
      rfl rfl rfl).2.2.1⟩

/-- C7 counterexample: a run in which the main content at the moment the
request was created is "X", an approve_main_content action rewrites the
main content to "Z" while the task is in flight, and after cancelling the
task the main content is still "Z", not the creation-time "X" the claim
requires. -/
theorem C7_counterexample :
    current_main_content c7_s0 = "X" ∧
    c7_s3.active_edit_task.map ActiveTask.original_content_snapshot = some "X" ∧
    c7_s3.active_edit_task.map ActiveTask.status = some "awaiting_diff_approval" ∧
    current_main_content c7_s3 = "Z" ∧
    current_main_content (step c7_s3 (.decision c7_oracle "cancel" none)) = "Z" ∧
    ("Z" : String) ≠ "X" := by
  have hact : (enqueue_new_request c7_s0 "edit it" "hint_based"
      (some "the X") none).active_edit_task = none := by decide
  have hs1 : c7_s1 = c7_l1 := by
    show step c7_s0 (.addEditRequest c7_oracle "edit it" "hint_based" (some "the X") none) = c7_l1
    simp only [step]
    unfold add_edit_request
    rw [if_neg (by decide), if_neg (by decide), if_neg (by decide)]
    dsimp only
    rw [if_pos hact]
    rw [processNext_eq_hint c7_oracle
      (enqueue_new_request c7_s0 "edit it" "hint_based" (some "the X") none)
      c7_req [] hact (by decide) rfl]
    decide
  have hs3 : c7_s3 = c7_l3 := by
    show step (step c7_s1 (.performAction "approve_main_content" { main := some "Z" }))
        (.proceedLocation c7_oracle
          { snippet := some "X", start_idx := some 0, end_idx := some 1 }) = c7_l3
    rw [hs1]
    decide
  have hc : step c7_s3 (.decision c7_oracle "cancel" none) = c7_l4 := by
    have hpre : step c7_s3 (.decision c7_oracle "cancel" none) =
        _process_next_edit_request c7_oracle c7_l4 := by
      rw [hs3]
      show process_llm_task_decision c7_oracle c7_l3 "cancel" none = _
      simp only [process_llm_task_decision, c7_l3, c7_task3]
      simp only [if_true]
      congr 1
    rw [hpre]
    exact processNext_eq_nil c7_oracle c7_l4 rfl rfl
  refine ⟨rfl, ?_, ?_, ?_, ?_, by decide⟩
  · rw [hs3]; rfl
  · rw [hs3]; rfl
  · rw [hs3]; rfl
  · rw [hc]; rfl

/-- C4 (amended) Locator failure parks the task: when the LLM-returned
snippet (stripped, non-empty) is found in the snapshot neither verbatim nor
case-insensitively, the locator reports the not-found error; the location
attempt then keeps the task, setting its status to "location_failed" and
appending the locator errors, and nothing else of the state changes.  From
that parked status the task is not recoverable through the decision or
clarification APIs: process_llm_task_decision "cancel" and
update_active_task_and_retry are guard-blocked error no-ops, because the
guards demand "awaiting_diff_approval" and "awaiting_clarification"
respectively. -/
theorem C4_locator_failure_parks_task :
    (∀ avail text hint r, avail = true → ¬ pyStrip r = "" →
      findSub text.data (pyStrip r).data = none →
      findSubCI text.data (pyStrip r).data = none →
      _llm_locator avail text hint (some r) =
        (none, ["LLM locator returned: '" ++ pyStrip r ++
          "', which was not found in the original text, even with lenient search."])) ∧
    (∀ o s t errs, s.active_edit_task = some t → ¬ t.user_hint.getD "" = "" →
      _llm_locator s.llm_service t.original_content_snapshot (t.user_hint.getD "") o.locResp =
        (none, errs) →
      _execute_llm_locator_attempt o s =
        setActive (appendErrors s errs) { t with status := "location_failed" }) ∧
    (∀ o s t m, s.active_edit_task = some t → t.status = "location_failed" →
      process_llm_task_decision o s "cancel" m = showError s decisionStateErrMsg) ∧
    (∀ o s t nh ni, s.active_edit_task = some t → t.status = "location_failed" →
      update_active_task_and_retry o s nh ni = showError s clarifyErrMsg) := by
  refine ⟨?_, ?_, ?_, ?_⟩
  · intro avail text hint r hav hne hfs hfci
    subst hav
    unfold _llm_locator
    rw [if_neg (by decide)]
    dsimp only
    rw [if_neg hne, hfs]
    dsimp only
    rw [hfci]
  · intro o s t errs hx hh hl
    unfold _execute_llm_locator_attempt
    rw [hx]
    dsimp only
    rw [if_neg hh, hl]
  · intro o s t m hx hst
    unfold process_llm_task_decision
    rw [hx]
    dsimp only
    cases hd : t.llm_generated_snippet_details with
    | none => rfl
    | some d =>
      dsimp only
      rw [if_pos (by rw [hst]; decide)]
  · intro o s t nh ni hx hst
    unfold update_active_task_and_retry
    rw [hx]
    dsimp only
    rw [if_pos (by rw [hst]; decide)]

/-- C4 counterexample: the hint-based task over snapshot "abc" whose locator
answer "zzz" is not found parks in status "location_failed"; from there a
cancel decision is a guard-blocked error no-op that neither discards the
task nor counts it terminal, and a clarification retry with a new hint is a
guard-blocked error no-op that does not reset the task to
"locating_snippet" — contradicting the claim that the parked task can be
cancelled or retried with a new hint. -/
theorem C4_counterexample :
    c4_s1.active_edit_task.map ActiveTask.status = some "location_failed" ∧
    process_llm_task_decision c4_oracle c4_s1 "cancel" none =
      showError c4_s1 decisionStateErrMsg ∧
    (process_llm_task_decision c4_oracle c4_s1 "cancel" none).active_edit_task =
      c4_s1.active_edit_task ∧
    (process_llm_task_decision c4_oracle c4_s1 "cancel" none).terminal_count =
      c4_s1.terminal_count ∧
    update_active_task_and_retry c4_oracle c4_s1 "a better hint" "" =
      showError c4_s1 clarifyErrMsg ∧
    (update_active_task_and_retry c4_oracle c4_s1 "a better hint" "").active_edit_task.map
      ActiveTask.status = some "location_failed" := by
  refine ⟨?_, ?_, ?_, ?_, ?_, ?_⟩ <;> decide
